import Mathlib

/-!
# Verification of the solana-volume-bot batching layer

Shallow embedding of the repository's batch-building, keypair-store and
simulation code.  Public keys are modelled by the inductive `Pk`,
on-chain instructions by `Ix`; external collaborators (the RPC balance
lookup, the transaction serializer and the bundle relay) are passed in
as explicit function parameters, since the source consumes them as
opaque services.  Amounts are rationals (the source uses JS numbers;
every claim below is about the exact recurrences the source computes,
so `ℚ` is the faithful carrier).
-/

namespace VolumeBot

/-- Public keys.  `main` is the process-wide user wallet from `config.ts`,
`tip` is the hard-coded `tipAcct`, `kp i` is the i-th stored keypair's
public key and `ata p` is the associated token address derived from
owner `p` (derivation is an opaque injective SDK call). -/
inductive Pk where
  | main : Pk
  | tip : Pk
  | kp (i : Nat) : Pk
  | ata (owner : Pk) : Pk
  deriving DecidableEq

/-- On-chain instructions, one constructor per SDK builder the source calls. -/
inductive Ix where
  | transfer (source dest : Pk) (lamports : ℚ)
  | createATAIdempotent (payer owner : Pk)
  | syncNative (acct : Pk)
  | tokenTransfer (source dest owner : Pk) (amount : ℚ)
  | closeAccount (acct dest owner : Pk)
  | swap (owner : Pk) (sell : Bool)
  deriving DecidableEq

/-- `LAMPORTS_PER_SOL` from `@solana/web3.js`. -/
def LAMPORTS_PER_SOL : ℚ := 1000000000

/-- One iteration of the `chunkArray` loop pushes `array.slice(i, i + size)`
and advances by `size`; for `size ≥ 1` the loop runs at most `array.length`
iterations, which `fuel` makes explicit (structural recursion). -/
def chunkArrayLoop {α : Type _} (size : Nat) : Nat → List α → List (List α)
  | _, [] => []
  | 0, _ :: _ => []
  | fuel + 1, a :: l => ((a :: l).take size) :: chunkArrayLoop size fuel ((a :: l).drop size)

/-- `chunkArray` from the distribute module: `for (i = 0; i < len; i += size)
chunks.push(array.slice(i, i + size))`.  For `size = 0` the source loop never
advances; callers guarantee `size ≥ 1`, and we return `[]` there. -/
def chunkArray {α : Type _} (array : List α) (size : Nat) : List (List α) :=
  if size = 0 then [] else chunkArrayLoop size array.length array

/-- The Jito tip: a `SystemProgram.transfer` to the hard-coded `tipAcct`. -/
def tipIx (source : Pk) (lamports : ℚ) : Ix := Ix.transfer source Pk.tip lamports

/-- An instruction is a tip exactly when it is a transfer whose destination
is the tip account. -/
def Ix.isTipTransfer : Ix → Bool
  | Ix.transfer _ dest _ => dest = Pk.tip
  | _ => false

/-- The stored keypair an instruction operates on, if any: the destination of a
SOL transfer, the owner of a created ATA, or the owner behind the ATA a
token-program instruction touches. -/
def Ix.walletTarget : Ix → Option Nat
  | Ix.transfer _ (Pk.kp i) _ => some i
  | Ix.createATAIdempotent _ (Pk.kp i) => some i
  | Ix.syncNative (Pk.ata (Pk.kp i)) => some i
  | Ix.tokenTransfer _ (Pk.ata (Pk.kp i)) _ _ => some i
  | _ => none

/-- `createAndSignVersionedTx`: compile the chunk into one transaction, log the
serialized size, log "tx too big" when it exceeds 1232 bytes, sign and return.
`serializeSize` stands for the opaque SDK call `tx.serialize()`; note the
oversized condition is only logged, never returned as an error. -/
def createAndSignVersionedTx (instructions : List Ix) (serializeSize : List Ix → Nat) :
    List Ix × List String :=
  let n := serializeSize instructions
  (instructions, [s!"Txn size: {n}"] ++ if n > 1232 then ["tx too big"] else [])

/-- Result record shared by the distribute operations. -/
structure DistributeResult where
  success : Bool
  message : String
  txCount : Option Nat
  bundleId : Option String
  deriving DecidableEq

/-- The indexed loop `for (i ...) { if (i === chunks.length - 1) chunk.push(tip) }`:
`i` is the running index, `total` the chunk count of the whole list. -/
def addTipLoop (total : Nat) (t : Ix) : Nat → List (List Ix) → List (List Ix)
  | _, [] => []
  | i, c :: rest => (if i = total - 1 then c ++ [t] else c) :: addTipLoop total t (i + 1) rest

/-- Append the tip to the last chunk (the loop above started at index 0). -/
def addTipToLast (chunks : List (List Ix)) (t : Ix) : List (List Ix) :=
  addTipLoop chunks.length t 0 chunks

/-- The SOL fee transfers of `distributeSolAndCreateATA` (one per kept wallet). -/
def solIxsFor (feePayer : Pk) (solAmt : ℚ) (used : List Nat) : List Ix :=
  used.map fun k => Ix.transfer feePayer (Pk.kp k) (solAmt * LAMPORTS_PER_SOL)

/-- The idempotent WSOL-ATA creations of `distributeSolAndCreateATA`. -/
def ataIxsFor (feePayer : Pk) (used : List Nat) : List Ix :=
  used.map fun k => Ix.createATAIdempotent feePayer (Pk.kp k)

/-- The sync-native + WSOL transfer pairs of `distributeWSOL`. -/
def wsolIxsFor (feePayer : Pk) (amountPerWallet : ℚ) (used : List Nat) : List Ix :=
  used.flatMap fun k =>
    [Ix.syncNative (Pk.ata (Pk.kp k)),
      Ix.tokenTransfer (Pk.ata feePayer) (Pk.ata (Pk.kp k)) feePayer
        (amountPerWallet * LAMPORTS_PER_SOL)]

/-- `distributeSolAndCreateATA`.  `keypairs` is the user's stored keypair list
(`loadKeypairs()`), `relay` the Jito `sendBundle` call.  Besides the result we
return the list of bundles handed to the relay and the console log. -/
def distributeSolAndCreateATA (solAmt jitoTipAmt : ℚ) (steps : Int) (feePayer : Pk)
    (keypairs : List Nat) (serializeSize : List Ix → Nat)
    (relay : List (List Ix) → Except String String) :
    DistributeResult × List (List (List Ix)) × List String :=
  if solAmt ≤ 0 ∨ jitoTipAmt ≤ 0 ∨ steps ≤ 0 then
    (⟨false, "All numeric inputs must be > 0", none, none⟩, [], [])
  else
    let used := keypairs.take steps.toNat
    if used.length = 0 then (⟨false, "No keypairs loaded", none, none⟩, [], [])
    else
      let solChunks := chunkArray (solIxsFor feePayer solAmt used) 10
      let solBuilt := solChunks.map fun c => createAndSignVersionedTx c serializeSize
      let ataChunks := addTipToLast (chunkArray (ataIxsFor feePayer used) 10)
        (tipIx feePayer jitoTipAmt)
      let ataBuilt := ataChunks.map fun c => createAndSignVersionedTx c serializeSize
      let allTxns := solBuilt.map Prod.fst ++ ataBuilt.map Prod.fst
      let logs := (solBuilt.map Prod.snd).flatten ++ (ataBuilt.map Prod.snd).flatten
      let cnt := used.length
      match relay allTxns with
      | Except.ok bid =>
          (⟨true, s!"Sent {solAmt} SOL + created WSOL ATAs for {cnt} wallets",
            some allTxns.length, some bid⟩, [allTxns], logs)
      | Except.error e => (⟨false, "Error: " ++ e, none, none⟩, [allTxns], logs)

/-- The chunk list `distributeWSOL` builds: six instructions per transaction,
tip pushed onto the last chunk. -/
def distributeWSOLChunks (feePayer : Pk) (amountPerWallet jitoTipAmt : ℚ)
    (used : List Nat) : List (List Ix) :=
  addTipToLast (chunkArray (wsolIxsFor feePayer amountPerWallet used) 6)
    (tipIx feePayer jitoTipAmt)

/-- `distributeWSOL`. -/
def distributeWSOL (amountPerWallet jitoTipAmt : ℚ) (steps : Int) (feePayer : Pk)
    (keypairs : List Nat) (serializeSize : List Ix → Nat)
    (relay : List (List Ix) → Except String String) :
    DistributeResult × List (List (List Ix)) × List String :=
  if amountPerWallet ≤ 0 ∨ jitoTipAmt ≤ 0 ∨ steps ≤ 0 then
    (⟨false, "All numeric inputs must be > 0", none, none⟩, [], [])
  else
    let used := keypairs.take steps.toNat
    if used.length = 0 then (⟨false, "No keypairs loaded", none, none⟩, [], [])
    else
      let chunks := distributeWSOLChunks feePayer amountPerWallet jitoTipAmt used
      let built := chunks.map fun c => createAndSignVersionedTx c serializeSize
      let txns := built.map Prod.fst
      let logs := (built.map Prod.snd).flatten
      let cnt := used.length
      match relay txns with
      | Except.ok bid =>
          (⟨true, s!"Sent {amountPerWallet} WSOL to {cnt} wallets",
            some txns.length, some bid⟩, [txns], logs)
      | Except.error e => (⟨false, "Error: " ++ e, none, none⟩, [txns], logs)

/-- Result record of `createReturns`. -/
structure ReclaimResult where
  success : Bool
  bundleId : Option String
  message : String
  reclaimedCount : Option Nat
  deriving DecidableEq

/-- Per-keypair reclaim instructions: close the WSOL ATA, then send the native
balance back when it exceeds 5000 lamports (leaving 5000 behind for rent).
`bal` is the RPC `connection.getBalance` collaborator. -/
def returnIxsForKp (bal : Nat → Int) (k : Nat) : List Ix :=
  [Ix.closeAccount (Pk.ata (Pk.kp k)) Pk.main (Pk.kp k)] ++
    if bal k > 5000 then [Ix.transfer (Pk.kp k) Pk.main ((bal k - 5000 : Int) : ℚ)] else []

/-- Reclaim instructions for one two-keypair chunk. -/
def returnIxsForChunk (bal : Nat → Int) (chunk : List Nat) : List Ix :=
  chunk.flatMap (returnIxsForKp bal)

/-- The chunked loop of `createReturns`: `for (i = 0; i < len; i += 2)` builds
the chunk `keypairs.slice(i, i + 2)` (`[k]` when one keypair remains, `[k, k2]`
otherwise), appends the tip when `i + 2 >= len`, serializes and fails the whole
batch on an oversized transaction.  On `[k]` the next iteration's remainder is
empty, so the loop ends with that single chunk. -/
def createReturnsLoop (total : Nat) (bal : Nat → Int) (tipLamports : ℚ)
    (serializeSize : List Ix → Nat) : Nat → List Nat → Except String (List (List Ix))
  | _, [] => Except.ok []
  | i, [k] =>
    let ixs := returnIxsForChunk bal [k] ++
      if i + 2 ≥ total then [tipIx Pk.main tipLamports] else []
    let n := serializeSize ixs
    if n > 1232 then Except.error s!"Tx too big: {n} bytes"
    else Except.ok [ixs]
  | i, k :: k2 :: rest =>
    let ixs := returnIxsForChunk bal [k, k2] ++
      if i + 2 ≥ total then [tipIx Pk.main tipLamports] else []
    let n := serializeSize ixs
    if n > 1232 then Except.error s!"Tx too big: {n} bytes"
    else
      match createReturnsLoop total bal tipLamports serializeSize (i + 2) rest with
      | Except.error e => Except.error e
      | Except.ok txs => Except.ok (ixs :: txs)

/-- `createReturns`: reclaim all stored wallets in one bundle. -/
def createReturns (jitoTipSOL : ℚ) (keypairs : List Nat) (bal : Nat → Int)
    (serializeSize : List Ix → Nat) (relay : List (List Ix) → Except String String) :
    ReclaimResult × List (List (List Ix)) :=
  if keypairs.length = 0 then (⟨false, none, "No keypairs found in ./keypairs", none⟩, [])
  else
    let tipLamports : ℚ := ((round (jitoTipSOL * LAMPORTS_PER_SOL) : ℤ) : ℚ)
    match createReturnsLoop keypairs.length bal tipLamports serializeSize 0 keypairs with
    | Except.error m => (⟨false, none, m, none⟩, [])
    | Except.ok txns =>
      let cnt := keypairs.length
      match relay txns with
      | Except.ok bid =>
          (⟨true, some bid, s!"Reclaimed {cnt} wallet(s)", some cnt⟩, [txns])
      | Except.error e => (⟨false, none, "Bundle failed: " ++ e, none⟩, [txns])

/-- Per-wallet instructions of one swap cycle (`executeSwapCycle` body):
idempotent base-token ATA creation, then a buy and a sell swap. -/
def cycleBaseIxs (k : Nat) : List Ix :=
  [Ix.createATAIdempotent (Pk.kp k) (Pk.kp k), Ix.swap (Pk.kp k) false, Ix.swap (Pk.kp k) true]

/-- The wallet loop of `executeSwapCycle`: one transaction per keypair, tip
pushed on the last wallet's transaction, throwing `Tx i too big` on oversize. -/
def buildCycleLoop (total : Nat) (tipLamports : ℚ) (serializeSize : List Ix → Nat) :
    Nat → List Nat → Except String (List (List Ix))
  | _, [] => Except.ok []
  | i, k :: rest =>
    let ixs := cycleBaseIxs k ++
      if i = total - 1 then [tipIx Pk.main tipLamports] else []
    let n := serializeSize ixs
    if n > 1232 then Except.error s!"Tx {i + 1} too big ({n} bytes)"
    else
      match buildCycleLoop total tipLamports serializeSize (i + 1) rest with
      | Except.error e => Except.error e
      | Except.ok txs => Except.ok (ixs :: txs)

/-- `executeSwapCycle`: derive pool keys (opaque; `poolKeysOk` says whether the
lookup succeeded), build one transaction per wallet and send them as one Jito
bundle.  The second component lists the bundles handed to the relay. -/
def executeSwapCycle (keypairs : List Nat) (poolKeysOk : Bool) (tipLamports : ℚ)
    (serializeSize : List Ix → Nat) (relay : List (List Ix) → Except String String) :
    Except String String × List (List (List Ix)) :=
  if poolKeysOk = false then (Except.error "Failed to fetch pool keys", [])
  else
    match buildCycleLoop keypairs.length tipLamports serializeSize 0 keypairs with
    | Except.error e => (Except.error e, [])
    | Except.ok txs =>
      match relay txs with
      | Except.ok bid => (Except.ok bid, [txs])
      | Except.error e => (Except.error e, [txs])

/-- Per-cycle external collaborators of the `volume` loop: the pool-key lookup,
the serializer and the relay, all re-consulted every cycle. -/
structure CycleEnv where
  poolKeysOk : Bool
  serializeSize : List Ix → Nat
  relay : List (List Ix) → Except String String

/-- The cycle loop of `volume`: run `executeSwapCycle` for cycles `c, c+1, ...`
(`n` of them), collecting bundle ids until the first thrown error. -/
def runCycles (keypairs : List Nat) (tipLamports : ℚ) (env : Nat → CycleEnv) :
    Nat → Nat → (List String × Option String) × List (List (List Ix))
  | _, 0 => (([], none), [])
  | c, n + 1 =>
    match executeSwapCycle keypairs (env c).poolKeysOk tipLamports
        (env c).serializeSize (env c).relay with
    | (Except.error e, sent) => (([], some e), sent)
    | (Except.ok bid, sent) =>
      let r := runCycles keypairs tipLamports env (c + 1) n
      ((bid :: r.1.1, r.1.2), sent ++ r.2)

/-- Result record of `volume`. -/
structure VolumeResult where
  success : Bool
  bundleIds : List String
  message : String
  deriving DecidableEq

/-- `volume` from the bot module: validate parameters, load the keypairs and
run the requested number of swap cycles, catching the first error. -/
def volume (marketID : String) (cycles : Int) (delaySec jitoTipSOL : ℚ)
    (keypairs : List Nat) (env : Nat → CycleEnv) :
    VolumeResult × List (List (List Ix)) :=
  if marketID = "" ∨ cycles ≤ 0 ∨ delaySec < 0 ∨ jitoTipSOL ≤ 0 then
    (⟨false, [], "Invalid parameters"⟩, [])
  else if keypairs.length = 0 then
    (⟨false, [], "No keypairs found in ./keypairs"⟩, [])
  else
    let tipLamports : ℚ := ((round (jitoTipSOL * LAMPORTS_PER_SOL) : ℤ) : ℚ)
    let r := runCycles keypairs tipLamports env 0 cycles.toNat
    let bids := r.1.1
    let m := bids.length
    match r.1.2 with
    | some e => (⟨false, bids, "Error: " ++ e⟩, r.2)
    | none =>
        (⟨true, bids, s!"Completed {cycles} cycle(s). {m} bundle(s) sent."⟩, r.2)

/-- The per-user keypair store: whether the user's directory exists, the
contents of the `keypairN.json` files (in sorted file order) and the
`keyInfo.json` summary.  Keypairs are abstract ids (their secret bytes play
no role in any claim). -/
structure UserStore where
  dirExists : Bool
  keypairFiles : List Nat
  keyInfo : Option (Nat × List Nat)
  deriving DecidableEq

/-- Result record of `createKeypairs`. -/
structure CreateKeypairsResult where
  success : Bool
  message : String
  wallets : List Nat
  pubkeys : Option (List Nat)
  deriving DecidableEq

/-- The `'create' | 'use'` mode argument. -/
inductive KeyMode where
  | create
  | use
  deriving DecidableEq

/-- `getUserKeypairsDir`: ensures the user's directory exists (its only write
effect); it creates no regular file. -/
def getUserKeypairsDir (store : UserStore) : UserStore := { store with dirExists := true }

/-- `generateWallets`: `num` freshly generated keypairs (`gen` stands for the
opaque `Keypair.generate`). -/
def generateWallets (gen : Nat → Nat) (num : Nat) : List Nat := (List.range num).map gen

/-- `updatePoolInfo`: overwrite `keyInfo.json` with the wallet count and the
public keys. -/
def updatePoolInfo (wallets : List Nat) (store : UserStore) : UserStore :=
  { store with keyInfo := some (wallets.length, wallets) }

/-- `createKeypairs(userId, mode, numWallets)`; `store0` is the state of this
user's keypair directory and the returned store its state afterwards.
`numWallets` is a JS number, so the integrality check is explicit. -/
def createKeypairs (mode : KeyMode) (numWallets : ℚ) (gen : Nat → Nat)
    (store0 : UserStore) : CreateKeypairsResult × UserStore :=
  let store := getUserKeypairsDir store0
  match mode with
  | KeyMode.create =>
    if ¬numWallets.isInt ∨ numWallets ≤ 0 ∨ numWallets > 20 then
      (⟨false, "Use 1–20 wallets.", [], none⟩, store)
    else if store.keypairFiles.length > 0 then
      (⟨false, "You already have keypairs! Use \"use\" mode.", [], none⟩, store)
    else
      let wallets := generateWallets gen numWallets.num.toNat
      let cnt := wallets.length
      (⟨true, s!"Created {cnt} keypairs for you.", wallets, some wallets⟩,
        updatePoolInfo wallets { store with keypairFiles := wallets })
  | KeyMode.use =>
    let wallets := store.keypairFiles
    if wallets.length = 0 then
      (⟨false, "No keypairs found. Use \"create\" first.", [], none⟩, store)
    else
      let cnt := wallets.length
      (⟨true, s!"Loaded {cnt} keypairs.", wallets, some wallets⟩,
        updatePoolInfo wallets store)

/-- `SWAP_TAX_RATE` from `simulate.ts` (0.5 % per swap). -/
def SWAP_TAX_RATE : ℚ := 5 / 1000

/-- The `data` payload of a successful simulation. -/
structure SimData where
  totalSolSent : ℚ
  totalSolAfter : ℚ
  totalSolSpent : ℚ
  totalVolumeSOL : ℚ
  totalUsdSpent : ℚ
  totalUsdVolume : ℚ
  walletFinal : List ℚ
  deriving DecidableEq

/-- Outcome of `calculateVolumeAndSolLoss` (the Markdown report text of the
success case is not modelled; no claim concerns it). -/
inductive SimResult where
  | failure (message : String)
  | success (data : SimData)
  deriving DecidableEq

/-- The inner wallet loop of one execution round: for each balance, add it to
the running volume, deduct the 0.5 % tax, add the tax to the running spend.
Returns (new balances, volume added, tax added). -/
def execRound : List ℚ → List ℚ × ℚ × ℚ
  | [] => ([], 0, 0)
  | b :: rest =>
    let tax := b * SWAP_TAX_RATE
    let r := execRound rest
    ((b - tax) :: r.1, b + r.2.1, tax + r.2.2)

/-- The outer execution loop: run `execRound` per execution and add the Jito
tip to the spend once per execution. -/
def simulateRounds (jitoTip : ℚ) : Nat → List ℚ → ℚ → ℚ → List ℚ × ℚ × ℚ
  | 0, bs, totalVol, totalSpent => (bs, totalVol, totalSpent)
  | n + 1, bs, totalVol, totalSpent =>
    let r := execRound bs
    simulateRounds jitoTip n r.1 (totalVol + r.2.1) (totalSpent + r.2.2 + jitoTip)

/-- `calculateVolumeAndSolLoss` from `simulate.ts`. -/
def calculateVolumeAndSolLoss (solPrice jitoTip : ℚ) (executions : Int)
    (walletAmounts : List ℚ) : SimResult :=
  if solPrice ≤ 0 ∨ jitoTip < 0 ∨ executions ≤ 0 then
    SimResult.failure "All numeric inputs must be > 0"
  else if walletAmounts.length = 0 then
    SimResult.failure "Provide at least one wallet amount"
  else
    let totalSolSent := walletAmounts.sum
    let r := simulateRounds jitoTip executions.toNat walletAmounts 0 0
    SimResult.success
      { totalSolSent := totalSolSent
        totalSolAfter := totalSolSent - r.2.2
        totalSolSpent := r.2.2
        totalVolumeSOL := r.2.1
        totalUsdSpent := r.2.2 * solPrice
        totalUsdVolume := r.2.1 * solPrice
        walletFinal := r.1 }

/-- Spec-side definition (for comparison with the code): one round maps each
wallet balance `b` to `b - b * 0.005`. -/
def specRoundUpdate (bs : List ℚ) : List ℚ := bs.map fun b => b - b * (5 / 1000)

/-- Spec-side definition: the total volume is the sum over rounds of each
wallet's balance immediately before that round's tax deduction. -/
def specVolume : Nat → List ℚ → ℚ
  | 0, _ => 0
  | n + 1, bs => bs.sum + specVolume n (specRoundUpdate bs)

theorem chunkArrayLoop_fuel {α : Type _} (size : Nat) (hs : 1 ≤ size) :
    ∀ (fuel fuel' : Nat) (l : List α), l.length ≤ fuel → l.length ≤ fuel' →
      chunkArrayLoop size fuel l = chunkArrayLoop size fuel' l := by
  intro fuel
  induction fuel with
  | zero =>
    intro fuel' l hl _
    obtain rfl : l = [] := List.length_eq_zero.mp (Nat.le_zero.mp hl)
    cases fuel' <;> rfl
  | succ fuel ih =>
    intro fuel' l hl hl'
    cases l with
    | nil => cases fuel' <;> rfl
    | cons a t =>
      cases fuel' with
      | zero => simp at hl'
      | succ fuel' =>
        simp only [chunkArrayLoop]
        refine congrArg _ (ih fuel' ((a :: t).drop size) ?_ ?_) <;>
          simp only [List.length_drop, List.length_cons] at * <;> omega

theorem chunkArray_nil {α : Type _} (k : Nat) : chunkArray ([] : List α) k = [] := by
  unfold chunkArray
  split <;> rfl

theorem chunkArray_cons {α : Type _} (a : α) (l : List α) (k : Nat) :
    chunkArray (a :: l) (k + 1) = (a :: l.take k) :: chunkArray (l.drop k) (k + 1) := by
  unfold chunkArray
  rw [if_neg (by omega), if_neg (by omega)]
  simp only [List.length_cons, chunkArrayLoop, List.take_succ_cons, List.drop_succ_cons]
  refine congrArg _ (chunkArrayLoop_fuel (k + 1) (by omega) l.length (l.drop k).length
    (l.drop k) ?_ le_rfl)
  simp [List.length_drop]

theorem chunkArray_length {α : Type _} (l : List α) (k : Nat) (hk : 1 ≤ k) :
    (chunkArray l k).length = (l.length + k - 1) / k := by
  obtain ⟨m, rfl⟩ : ∃ m, k = m + 1 := ⟨k - 1, by omega⟩
  clear hk
  suffices H : ∀ (n : Nat) (l : List α), l.length ≤ n →
      (chunkArray l (m + 1)).length = (l.length + (m + 1) - 1) / (m + 1) from
    H l.length l le_rfl
  intro n
  induction n with
  | zero =>
    intro l hl
    obtain rfl : l = [] := List.length_eq_zero.mp (Nat.le_zero.mp hl)
    rw [chunkArray_nil]
    simp only [List.length_nil, Nat.zero_add]
    exact (Nat.div_eq_of_lt (by omega)).symm
  | succ n ih =>
    intro l hl
    cases l with
    | nil =>
      rw [chunkArray_nil]
      simp only [List.length_nil, Nat.zero_add]
      exact (Nat.div_eq_of_lt (by omega)).symm
    | cons a t =>
      rw [chunkArray_cons]
      simp only [List.length_cons] at hl ⊢
      rw [ih (t.drop m) (by simp only [List.length_drop]; omega)]
      simp only [List.length_drop]
      rcases le_or_lt t.length m with h | h
      · rw [Nat.sub_eq_zero_of_le h, Nat.zero_add, Nat.div_eq_of_lt (by omega),
          Nat.div_eq_sub_div (by omega) (by omega), Nat.div_eq_of_lt (by omega)]
      · have he : t.length + 1 + (m + 1) - 1 = (t.length - m + (m + 1) - 1) + (m + 1) := by
          omega
        rw [he, Nat.add_div_right _ (by omega)]

theorem chunkArray_mem_length_le {α : Type _} (l : List α) (k : Nat) :
    ∀ c ∈ chunkArray l k, c.length ≤ k := by
  obtain rfl | ⟨m, rfl⟩ : k = 0 ∨ ∃ m, k = m + 1 := by
    rcases k with _ | m
    · exact Or.inl rfl
    · exact Or.inr ⟨m, rfl⟩
  · simp [chunkArray]
  suffices H : ∀ (n : Nat) (l : List α), l.length ≤ n →
      ∀ c ∈ chunkArray l (m + 1), c.length ≤ m + 1 from H l.length l le_rfl
  intro n
  induction n with
  | zero =>
    intro l hl
    obtain rfl : l = [] := List.length_eq_zero.mp (Nat.le_zero.mp hl)
    simp [chunkArray_nil]
  | succ n ih =>
    intro l hl
    cases l with
    | nil => simp [chunkArray_nil]
    | cons a t =>
      rw [chunkArray_cons]
      intro c hc
      rcases List.mem_cons.mp hc with rfl | hc
      · simp only [List.length_cons]
        exact Nat.succ_le_succ (List.length_take_le m t)
      · refine ih (t.drop m) ?_ c hc
        simp only [List.length_cons] at hl
        simp only [List.length_drop]
        omega

theorem chunkArray_flatten {α : Type _} (l : List α) (k : Nat) (hk : 1 ≤ k) :
    (chunkArray l k).flatten = l := by
  obtain ⟨m, rfl⟩ : ∃ m, k = m + 1 := ⟨k - 1, by omega⟩
  clear hk
  suffices H : ∀ (n : Nat) (l : List α), l.length ≤ n →
      (chunkArray l (m + 1)).flatten = l from H l.length l le_rfl
  intro n
  induction n with
  | zero =>
    intro l hl
    obtain rfl : l = [] := List.length_eq_zero.mp (Nat.le_zero.mp hl)
    rw [chunkArray_nil]; rfl
  | succ n ih =>
    intro l hl
    cases l with
    | nil => rw [chunkArray_nil]; rfl
    | cons a t =>
      rw [chunkArray_cons]
      simp only [List.length_cons] at hl
      simp only [List.flatten_cons, ih (t.drop m) (by simp only [List.length_drop]; omega),
        List.cons_append, List.take_append_drop]

/-- The tip discipline of a bundle: a tip transfer is the final instruction of
the final chunk, and no other instruction anywhere in the bundle is a tip
transfer. -/
def TipLast (cs : List (List Ix)) : Prop :=
  ∃ pre body t, cs = pre ++ [body ++ [t]] ∧ t.isTipTransfer = true ∧
    (∀ c ∈ pre, ∀ ix ∈ c, ix.isTipTransfer = false) ∧
    ∀ ix ∈ body, ix.isTipTransfer = false

end VolumeBot

namespace VolumeBot

theorem chunkArray_ne_nil {α : Type _} (l : List α) (k : Nat) (hl : l ≠ []) :
    chunkArray l (k + 1) ≠ [] := by
  cases l with
  | nil => exact absurd rfl hl
  | cons a l => rw [chunkArray_cons]; exact List.cons_ne_nil _ _

theorem mem_of_mem_chunkArray {α : Type _} {l : List α} {k : Nat} (hk : 1 ≤ k)
    {c : List α} (hc : c ∈ chunkArray l k) {x : α} (hx : x ∈ c) : x ∈ l := by
  rw [← chunkArray_flatten l k hk]
  exact List.mem_flatten.mpr ⟨c, hc, hx⟩

theorem addTipLoop_concat (t : Ix) :
    ∀ (pre : List (List Ix)) (lastc : List Ix) (i total : Nat),
      i + pre.length + 1 = total →
      addTipLoop total t i (pre ++ [lastc]) = pre ++ [lastc ++ [t]] := by
  intro pre
  induction pre with
  | nil =>
    intro lastc i total h
    simp only [List.length_nil] at h
    simp only [List.nil_append, addTipLoop]
    rw [if_pos (by omega)]
  | cons c pre ih =>
    intro lastc i total h
    simp only [List.length_cons] at h
    simp only [List.cons_append, addTipLoop]
    rw [if_neg (by omega)]
    exact congrArg (List.cons c) (ih lastc (i + 1) total (by omega))

theorem addTipToLast_concat (pre : List (List Ix)) (lastc : List Ix) (t : Ix) :
    addTipToLast (pre ++ [lastc]) t = pre ++ [lastc ++ [t]] := by
  unfold addTipToLast
  exact addTipLoop_concat t pre lastc 0 _ (by simp)

theorem TipLast.cons {c : List Ix} {cs : List (List Ix)} (hcs : TipLast cs)
    (hc : ∀ ix ∈ c, ix.isTipTransfer = false) : TipLast (c :: cs) := by
  obtain ⟨pre, body, t, rfl, ht, hpre, hbody⟩ := hcs
  refine ⟨c :: pre, body, t, rfl, ht, ?_, hbody⟩
  intro c' hc' ix hix
  rcases List.mem_cons.mp hc' with rfl | hc'
  · exact hc ix hix
  · exact hpre c' hc' ix hix

theorem tipIx_isTip (source : Pk) (amt : ℚ) : (tipIx source amt).isTipTransfer = true := rfl

theorem solIxsFor_not_tip (fp : Pk) (amt : ℚ) (used : List Nat) :
    ∀ ix ∈ solIxsFor fp amt used, ix.isTipTransfer = false := by
  intro ix hix
  simp only [solIxsFor, List.mem_map] at hix
  obtain ⟨k, _, rfl⟩ := hix
  rfl

theorem ataIxsFor_not_tip (fp : Pk) (used : List Nat) :
    ∀ ix ∈ ataIxsFor fp used, ix.isTipTransfer = false := by
  intro ix hix
  simp only [ataIxsFor, List.mem_map] at hix
  obtain ⟨k, _, rfl⟩ := hix
  rfl

theorem wsolIxsFor_not_tip (fp : Pk) (amt : ℚ) (used : List Nat) :
    ∀ ix ∈ wsolIxsFor fp amt used, ix.isTipTransfer = false := by
  intro ix hix
  simp only [wsolIxsFor, List.mem_flatMap, List.mem_cons, List.mem_singleton] at hix
  obtain ⟨k, _, h⟩ := hix
  rcases h with rfl | h
  · rfl
  rcases h with rfl | h
  · rfl
  exact absurd h (List.not_mem_nil ix)

theorem returnIxsForChunk_not_tip (bal : Nat → Int) (chunk : List Nat) :
    ∀ ix ∈ returnIxsForChunk bal chunk, ix.isTipTransfer = false := by
  intro ix hix
  simp only [returnIxsForChunk, List.mem_flatMap] at hix
  obtain ⟨k, _, h⟩ := hix
  simp only [returnIxsForKp, List.cons_append, List.nil_append, List.mem_cons] at h
  rcases h with rfl | h
  · rfl
  by_cases hb : bal k > 5000
  · rw [if_pos hb] at h
    rcases List.mem_singleton.mp h with rfl
    rfl
  · rw [if_neg hb] at h
    exact absurd h (List.not_mem_nil ix)

theorem cycleBaseIxs_not_tip (k : Nat) :
    ∀ ix ∈ cycleBaseIxs k, ix.isTipTransfer = false := by
  intro ix hix
  simp only [cycleBaseIxs, List.mem_cons, List.mem_singleton] at hix
  rcases hix with rfl | rfl | rfl | h
  · rfl
  · rfl
  · rfl
  exact absurd h (List.not_mem_nil ix)

/-- Signing strips nothing: the transaction built from a chunk is that chunk. -/
theorem builtTxns_eq (cs : List (List Ix)) (ss : List Ix → Nat) :
    (cs.map fun c => createAndSignVersionedTx c ss).map Prod.fst = cs := by
  induction cs with
  | nil => rfl
  | cons c cs ih =>
    simp only [List.map_cons, ih]
    rfl

theorem addTipToLast_tipLast {cs : List (List Ix)} (hne : cs ≠ [])
    (hfree : ∀ c ∈ cs, ∀ ix ∈ c, ix.isTipTransfer = false)
    {t : Ix} (ht : t.isTipTransfer = true) : TipLast (addTipToLast cs t) := by
  obtain ⟨pre, lastc, hcs⟩ : ∃ pre lastc, cs = pre ++ [lastc] :=
    ⟨cs.dropLast, cs.getLast hne, (List.dropLast_append_getLast hne).symm⟩
  subst hcs
  rw [addTipToLast_concat]
  refine ⟨pre, lastc, t, rfl, ht, ?_, ?_⟩
  · intro c hc ix hix
    exact hfree c (List.mem_append_left _ hc) ix hix
  · intro ix hix
    exact hfree lastc (List.mem_append_right _ (List.mem_singleton.mpr rfl)) ix hix

theorem distributeWSOLChunks_tipLast (fp : Pk) (amt tip : ℚ) (used : List Nat)
    (h : used ≠ []) : TipLast (distributeWSOLChunks fp amt tip used) := by
  unfold distributeWSOLChunks
  refine addTipToLast_tipLast (chunkArray_ne_nil _ 5 ?_) ?_ (tipIx_isTip fp tip)
  · cases used with
    | nil => exact absurd rfl h
    | cons u us => simp [wsolIxsFor]
  · intro c hc ix hix
    exact wsolIxsFor_not_tip fp amt used ix (mem_of_mem_chunkArray (by omega) hc hix)

theorem createReturnsLoop_tipLast (total : Nat) (bal : Nat → Int) (tipLam : ℚ)
    (ss : List Ix → Nat) :
    ∀ (n : Nat) (rem : List Nat) (i : Nat), rem.length ≤ n → rem ≠ [] →
      i + rem.length = total →
      ∀ txs, createReturnsLoop total bal tipLam ss i rem = Except.ok txs → TipLast txs := by
  intro n
  induction n with
  | zero =>
    intro rem i hn hne
    obtain rfl : rem = [] := List.length_eq_zero.mp (Nat.le_zero.mp hn)
    exact absurd rfl hne
  | succ n ih =>
    intro rem i hn hne hlen txs heq
    match rem, hne with
    | [k], _ =>
      simp only [List.length_cons, List.length_nil] at hlen
      simp only [createReturnsLoop] at heq
      rw [if_pos (by omega : i + 2 ≥ total)] at heq
      split at heq
      · cases heq
      · cases heq
        exact ⟨[], returnIxsForChunk bal [k], tipIx Pk.main tipLam, rfl,
          tipIx_isTip _ _, by simp, returnIxsForChunk_not_tip bal [k]⟩
    | [k, k2], _ =>
      simp only [List.length_cons, List.length_nil] at hlen
      simp only [createReturnsLoop] at heq
      rw [if_pos (by omega : i + 2 ≥ total)] at heq
      split at heq
      · cases heq
      · cases heq
        exact ⟨[], returnIxsForChunk bal [k, k2], tipIx Pk.main tipLam, rfl,
          tipIx_isTip _ _, by simp, returnIxsForChunk_not_tip bal [k, k2]⟩
    | k :: k2 :: r :: rest, _ =>
      simp only [List.length_cons] at hlen hn
      simp only [createReturnsLoop] at heq
      rw [if_neg (by omega : ¬i + 2 ≥ total)] at heq
      split at heq
      · cases heq
      · split at heq
        · cases heq
        · rename_i txs0 hrec
          cases heq
          refine TipLast.cons (ih (r :: rest) (i + 2) (by simp only [List.length_cons]; omega)
            (List.cons_ne_nil r rest) (by simp only [List.length_cons]; omega) txs0 hrec) ?_
          rw [List.append_nil]
          exact returnIxsForChunk_not_tip bal [k, k2]

theorem buildCycleLoop_tipLast (total : Nat) (tipLam : ℚ) (ss : List Ix → Nat) :
    ∀ (rem : List Nat) (i : Nat), rem ≠ [] → i + rem.length = total →
      ∀ txs, buildCycleLoop total tipLam ss i rem = Except.ok txs → TipLast txs := by
  intro rem
  induction rem with
  | nil => intro i hne; exact absurd rfl hne
  | cons k rest ih =>
    intro i _ hlen txs heq
    simp only [List.length_cons] at hlen
    cases rest with
    | nil =>
      simp only [List.length_nil] at hlen
      simp only [buildCycleLoop] at heq
      rw [if_pos (by omega : i = total - 1)] at heq
      split at heq
      · cases heq
      · cases heq
        exact ⟨[], cycleBaseIxs k, tipIx Pk.main tipLam, rfl, tipIx_isTip _ _, by simp,
          cycleBaseIxs_not_tip k⟩
    | cons r rest =>
      simp only [List.length_cons] at hlen
      simp only [buildCycleLoop] at heq
      rw [if_neg (by omega : ¬i = total - 1)] at heq
      split at heq
      · cases heq
      · split at heq
        · cases heq
        · rename_i txs0 hrec
          cases heq
          refine TipLast.cons (ih (i + 1) (List.cons_ne_nil r rest)
            (by simp only [List.length_cons]; omega) txs0 hrec) ?_
          rw [List.append_nil]
          exact cycleBaseIxs_not_tip k

theorem createReturns_sent_tipLast (jts : ℚ) (kps : List Nat) (bal : Nat → Int)
    (ss : List Ix → Nat) (relay : List (List Ix) → Except String String) :
    ∀ b ∈ (createReturns jts kps bal ss relay).2, TipLast b := by
  intro b hb
  simp only [createReturns] at hb
  split at hb
  · cases hb
  · rename_i hk
    split at hb
    · cases hb
    · rename_i txns hloop
      have htip : TipLast txns := by
        refine createReturnsLoop_tipLast kps.length bal _ ss kps.length kps 0 le_rfl ?_
          (by omega) txns hloop
        intro h
        rw [h] at hk
        exact hk rfl
      split at hb <;> · rcases List.mem_singleton.mp hb with rfl; exact htip

theorem executeSwapCycle_sent_tipLast (kps : List Nat) (poolKeysOk : Bool) (tipLam : ℚ)
    (ss : List Ix → Nat) (relay : List (List Ix) → Except String String) (hne : kps ≠ []) :
    ∀ b ∈ (executeSwapCycle kps poolKeysOk tipLam ss relay).2, TipLast b := by
  intro b hb
  simp only [executeSwapCycle] at hb
  split at hb
  · cases hb
  · split at hb
    · cases hb
    · rename_i txs heq
      have htip : TipLast txs :=
        buildCycleLoop_tipLast kps.length tipLam ss kps 0 hne (by omega) txs heq
      split at hb <;> · rcases List.mem_singleton.mp hb with rfl; exact htip

theorem distributeWSOL_sent_tipLast (amt tip : ℚ) (steps : Int) (fp : Pk) (kps : List Nat)
    (ss : List Ix → Nat) (relay : List (List Ix) → Except String String) :
    ∀ b ∈ (distributeWSOL amt tip steps fp kps ss relay).2.1, TipLast b := by
  intro b hb
  simp only [distributeWSOL, builtTxns_eq] at hb
  split at hb
  · cases hb
  · split at hb
    · cases hb
    · rename_i hused
      have htip : TipLast (distributeWSOLChunks fp amt tip (kps.take steps.toNat)) := by
        refine distributeWSOLChunks_tipLast fp amt tip _ ?_
        intro h
        rw [h] at hused
        exact hused rfl
      split at hb <;> · rcases List.mem_singleton.mp hb with rfl; exact htip

theorem oversize_logged (cs : List (List Ix)) (ss : List Ix → Nat) {c : List Ix}
    (hc : c ∈ cs) (hbig : 1232 < ss c) :
    "tx too big" ∈ ((cs.map fun x => createAndSignVersionedTx x ss).map Prod.snd).flatten := by
  refine List.mem_flatten.mpr ⟨(createAndSignVersionedTx c ss).2, ?_, ?_⟩
  · rw [List.map_map]
    exact List.mem_map.mpr ⟨c, hc, rfl⟩
  · simp only [createAndSignVersionedTx]
    rw [if_pos hbig]
    simp

theorem distributeWSOL_size_independent (amt tip : ℚ) (steps : Int) (fp : Pk)
    (kps : List Nat) (ss ss' : List Ix → Nat)
    (relay : List (List Ix) → Except String String) :
    (distributeWSOL amt tip steps fp kps ss relay).1 =
      (distributeWSOL amt tip steps fp kps ss' relay).1 ∧
    (distributeWSOL amt tip steps fp kps ss relay).2.1 =
      (distributeWSOL amt tip steps fp kps ss' relay).2.1 := by
  simp only [distributeWSOL, builtTxns_eq]
  split
  · exact ⟨rfl, rfl⟩
  split
  · exact ⟨rfl, rfl⟩
  split <;> exact ⟨rfl, rfl⟩

theorem distributeSolAndCreateATA_size_independent (solAmt tip : ℚ) (steps : Int) (fp : Pk)
    (kps : List Nat) (ss ss' : List Ix → Nat)
    (relay : List (List Ix) → Except String String) :
    (distributeSolAndCreateATA solAmt tip steps fp kps ss relay).1 =
      (distributeSolAndCreateATA solAmt tip steps fp kps ss' relay).1 ∧
    (distributeSolAndCreateATA solAmt tip steps fp kps ss relay).2.1 =
      (distributeSolAndCreateATA solAmt tip steps fp kps ss' relay).2.1 := by
  simp only [distributeSolAndCreateATA, builtTxns_eq]
  split
  · exact ⟨rfl, rfl⟩
  split
  · exact ⟨rfl, rfl⟩
  split <;> exact ⟨rfl, rfl⟩

theorem distributeWSOL_oversize_logged (amt tip : ℚ) (steps : Int) (fp : Pk)
    (kps : List Nat) (ss : List Ix → Nat) (relay : List (List Ix) → Except String String)
    {b : List (List Ix)} (hb : b ∈ (distributeWSOL amt tip steps fp kps ss relay).2.1)
    {tx : List Ix} (htx : tx ∈ b) (hbig : 1232 < ss tx) :
    "tx too big" ∈ (distributeWSOL amt tip steps fp kps ss relay).2.2 := by
  simp only [distributeWSOL, builtTxns_eq] at hb ⊢
  by_cases h1 : amt ≤ 0 ∨ tip ≤ 0 ∨ steps ≤ 0
  · rw [if_pos h1] at hb; cases hb
  rw [if_neg h1] at hb ⊢
  by_cases h2 : (kps.take steps.toNat).length = 0
  · rw [if_pos h2] at hb; cases hb
  rw [if_neg h2] at hb ⊢
  revert hb
  cases hrel : relay (distributeWSOLChunks fp amt tip (kps.take steps.toNat)) <;>
    · intro hb
      rcases List.mem_singleton.mp hb with rfl
      exact oversize_logged _ ss htx hbig

theorem distributeSolAndCreateATA_oversize_logged (solAmt tip : ℚ) (steps : Int) (fp : Pk)
    (kps : List Nat) (ss : List Ix → Nat) (relay : List (List Ix) → Except String String)
    {b : List (List Ix)}
    (hb : b ∈ (distributeSolAndCreateATA solAmt tip steps fp kps ss relay).2.1)
    {tx : List Ix} (htx : tx ∈ b) (hbig : 1232 < ss tx) :
    "tx too big" ∈ (distributeSolAndCreateATA solAmt tip steps fp kps ss relay).2.2 := by
  simp only [distributeSolAndCreateATA, builtTxns_eq] at hb ⊢
  by_cases h1 : solAmt ≤ 0 ∨ tip ≤ 0 ∨ steps ≤ 0
  · rw [if_pos h1] at hb; cases hb
  rw [if_neg h1] at hb ⊢
  by_cases h2 : (kps.take steps.toNat).length = 0
  · rw [if_pos h2] at hb; cases hb
  rw [if_neg h2] at hb ⊢
  revert hb
  cases hrel : relay (chunkArray (solIxsFor fp solAmt (kps.take steps.toNat)) 10 ++
      addTipToLast (chunkArray (ataIxsFor fp (kps.take steps.toNat)) 10) (tipIx fp tip)) <;>
    · intro hb
      rcases List.mem_singleton.mp hb with rfl
      rcases List.mem_append.mp htx with h | h
      · exact List.mem_append_left _ (oversize_logged _ ss h hbig)
      · exact List.mem_append_right _ (oversize_logged _ ss h hbig)

theorem createReturnsLoop_error_form (total : Nat) (bal : Nat → Int) (tipLam : ℚ)
    (ss : List Ix → Nat) :
    ∀ (n : Nat) (rem : List Nat) (i : Nat) (m : String), rem.length ≤ n →
      createReturnsLoop total bal tipLam ss i rem = Except.error m →
      ∃ nn, 1232 < nn ∧ m = s!"Tx too big: {nn} bytes" := by
  intro n
  induction n with
  | zero =>
    intro rem i m hn heq
    obtain rfl : rem = [] := List.length_eq_zero.mp (Nat.le_zero.mp hn)
    cases heq
  | succ n ih =>
    intro rem i m hn heq
    match rem with
    | [] => cases heq
    | [k] =>
      simp only [createReturnsLoop] at heq
      split at heq
      all_goals split at heq
      · rename_i hbig
        cases heq
        exact ⟨_, hbig, rfl⟩
      · cases heq
      · rename_i hbig
        cases heq
        exact ⟨_, hbig, rfl⟩
      · cases heq
    | [k, k2] =>
      simp only [createReturnsLoop] at heq
      split at heq
      all_goals split at heq
      · rename_i hbig
        cases heq
        exact ⟨_, hbig, rfl⟩
      · cases heq
      · rename_i hbig
        cases heq
        exact ⟨_, hbig, rfl⟩
      · cases heq
    | k :: k2 :: r :: rest =>
      have hrest : (r :: rest).length ≤ n := by
        simp only [List.length_cons] at hn ⊢
        omega
      simp only [createReturnsLoop] at heq
      split at heq
      all_goals split at heq
      · rename_i hbig
        cases heq
        exact ⟨_, hbig, rfl⟩
      · split at heq
        · rename_i e hrec
          cases heq
          exact ih (r :: rest) (i + 2) m hrest hrec
        · cases heq
      · rename_i hbig
        cases heq
        exact ⟨_, hbig, rfl⟩
      · split at heq
        · rename_i e hrec
          cases heq
          exact ih (r :: rest) (i + 2) m hrest hrec
        · cases heq

theorem createReturnsLoop_ok_sizes (total : Nat) (bal : Nat → Int) (tipLam : ℚ)
    (ss : List Ix → Nat) :
    ∀ (n : Nat) (rem : List Nat) (i : Nat) (txs : List (List Ix)), rem.length ≤ n →
      createReturnsLoop total bal tipLam ss i rem = Except.ok txs →
      ∀ tx ∈ txs, ss tx ≤ 1232 := by
  intro n
  induction n with
  | zero =>
    intro rem i txs hn heq
    obtain rfl : rem = [] := List.length_eq_zero.mp (Nat.le_zero.mp hn)
    cases heq
    simp
  | succ n ih =>
    intro rem i txs hn heq
    match rem with
    | [] =>
      cases heq
      simp
    | [k] =>
      simp only [createReturnsLoop] at heq
      split at heq
      all_goals split at heq
      · cases heq
      · rename_i hbig
        cases heq
        intro tx htx
        rcases List.mem_singleton.mp htx with rfl
        omega
      · cases heq
      · rename_i hbig
        cases heq
        intro tx htx
        rcases List.mem_singleton.mp htx with rfl
        omega
    | [k, k2] =>
      simp only [createReturnsLoop] at heq
      split at heq
      all_goals split at heq
      · cases heq
      · rename_i hbig
        cases heq
        intro tx htx
        rcases List.mem_singleton.mp htx with rfl
        omega
      · cases heq
      · rename_i hbig
        cases heq
        intro tx htx
        rcases List.mem_singleton.mp htx with rfl
        omega
    | k :: k2 :: r :: rest =>
      have hrest : (r :: rest).length ≤ n := by
        simp only [List.length_cons] at hn ⊢
        omega
      simp only [createReturnsLoop] at heq
      split at heq
      all_goals split at heq
      · cases heq
      · rename_i hbig
        split at heq
        · cases heq
        · rename_i txs0 hrec
          cases heq
          intro tx htx
          rcases List.mem_cons.mp htx with rfl | htx
          · omega
          · exact ih (r :: rest) (i + 2) txs0 hrest hrec tx htx
      · cases heq
      · rename_i hbig
        split at heq
        · cases heq
        · rename_i txs0 hrec
          cases heq
          intro tx htx
          rcases List.mem_cons.mp htx with rfl | htx
          · omega
          · exact ih (r :: rest) (i + 2) txs0 hrest hrec tx htx

theorem buildCycleLoop_error_form (total : Nat) (tipLam : ℚ) (ss : List Ix → Nat) :
    ∀ (rem : List Nat) (i : Nat) (m : String),
      buildCycleLoop total tipLam ss i rem = Except.error m →
      ∃ (j nn : Nat), 1232 < nn ∧ m = s!"Tx {j} too big ({nn} bytes)" := by
  intro rem
  induction rem with
  | nil => intro i m heq; cases heq
  | cons k rest ih =>
    intro i m heq
    simp only [buildCycleLoop] at heq
    split at heq
    all_goals split at heq
    · rename_i hbig
      cases heq
      exact ⟨i + 1, _, hbig, rfl⟩
    · split at heq
      · rename_i e hrec
        cases heq
        exact ih (i + 1) m hrec
      · cases heq
    · rename_i hbig
      cases heq
      exact ⟨i + 1, _, hbig, rfl⟩
    · split at heq
      · rename_i e hrec
        cases heq
        exact ih (i + 1) m hrec
      · cases heq

theorem buildCycleLoop_ok_sizes (total : Nat) (tipLam : ℚ) (ss : List Ix → Nat) :
    ∀ (rem : List Nat) (i : Nat) (txs : List (List Ix)),
      buildCycleLoop total tipLam ss i rem = Except.ok txs → ∀ tx ∈ txs, ss tx ≤ 1232 := by
  intro rem
  induction rem with
  | nil =>
    intro i txs heq
    cases heq
    simp
  | cons k rest ih =>
    intro i txs heq
    simp only [buildCycleLoop] at heq
    split at heq
    all_goals split at heq
    · cases heq
    · rename_i hbig
      split at heq
      · cases heq
      · rename_i txs0 hrec
        cases heq
        intro tx htx
        rcases List.mem_cons.mp htx with rfl | htx
        · omega
        · exact ih (i + 1) txs0 hrec tx htx
    · cases heq
    · rename_i hbig
      split at heq
      · cases heq
      · rename_i txs0 hrec
        cases heq
        intro tx htx
        rcases List.mem_cons.mp htx with rfl | htx
        · omega
        · exact ih (i + 1) txs0 hrec tx htx

theorem createReturns_oversize_surfaced (jts : ℚ) (kps : List Nat) (bal : Nat → Int)
    (ss : List Ix → Nat) (relay : List (List Ix) → Except String String) (m : String)
    (hloop : createReturnsLoop kps.length bal ((round (jts * LAMPORTS_PER_SOL) : ℤ) : ℚ)
      ss 0 kps = Except.error m) :
    createReturns jts kps bal ss relay = (⟨false, none, m, none⟩, []) := by
  have hk : ¬kps.length = 0 := by
    intro h
    obtain rfl : kps = [] := List.length_eq_zero.mp h
    cases hloop
  simp only [createReturns]
  rw [if_neg hk, hloop]

theorem executeSwapCycle_oversize_surfaced (kps : List Nat) (tipLam : ℚ)
    (ss : List Ix → Nat) (relay : List (List Ix) → Except String String) (m : String)
    (hloop : buildCycleLoop kps.length tipLam ss 0 kps = Except.error m) :
    executeSwapCycle kps true tipLam ss relay = (Except.error m, []) := by
  simp only [executeSwapCycle]
  rw [if_neg (by simp), hloop]

end VolumeBot

open VolumeBot

/-- Counterexample to **C1** as stated: with the serializer reporting 2000
bytes (> 1232) for every transaction, `distributeWSOL` surfaces no 'too large'
error — it returns success with a bundle id — and the oversized bundle is
still handed to the relay; the condition only appears in the console log. -/
theorem distributeWSOL_oversize_not_surfaced :
    (distributeWSOL 2 7 1 Pk.main [0] (fun _ => 2000) fun _ => Except.ok "bid").1.success
        = true ∧
    (distributeWSOL 2 7 1 Pk.main [0] (fun _ => 2000) fun _ => Except.ok "bid").1.bundleId
        = some "bid" ∧
    (distributeWSOL 2 7 1 Pk.main [0] (fun _ => 2000) fun _ => Except.ok "bid").2.1 =
      [[[Ix.syncNative (Pk.ata (Pk.kp 0)),
         Ix.tokenTransfer (Pk.ata Pk.main) (Pk.ata (Pk.kp 0)) Pk.main 2000000000,
         Ix.transfer Pk.main Pk.tip 7]]] ∧
    "tx too big" ∈
      (distributeWSOL 2 7 1 Pk.main [0] (fun _ => 2000) fun _ => Except.ok "bid").2.2 := by
  norm_num [distributeWSOL, distributeWSOLChunks, wsolIxsFor, chunkArray, chunkArrayLoop,
    addTipToLast, addTipLoop, createAndSignVersionedTx, tipIx, LAMPORTS_PER_SOL]

/-- **C1 (amended).** Size-ceiling handling differs per operation.
`createReturns` surfaces a distinct `Tx too big: N bytes` failure and submits
nothing, and its loop only yields transactions within the ceiling;
`executeSwapCycle` raises a distinct `Tx i too big (N bytes)` error and
submits nothing, and its loop only yields transactions within the ceiling.
`distributeSolAndCreateATA` and `distributeWSOL`, however, do not surface the
condition: their result and the bundles they hand to the relay are independent
of the serialized sizes, and an oversized transaction in a submitted bundle is
only reported in the console log. -/
theorem oversize_handling_per_operation :
    (∀ (solAmt jitoTipAmt : ℚ) (steps : Int) (feePayer : Pk) (keypairs : List Nat)
        (ss ss' : List Ix → Nat) (relay : List (List Ix) → Except String String),
      (distributeSolAndCreateATA solAmt jitoTipAmt steps feePayer keypairs ss relay).1 =
        (distributeSolAndCreateATA solAmt jitoTipAmt steps feePayer keypairs ss' relay).1 ∧
      (distributeSolAndCreateATA solAmt jitoTipAmt steps feePayer keypairs ss relay).2.1 =
        (distributeSolAndCreateATA solAmt jitoTipAmt steps feePayer keypairs ss' relay).2.1) ∧
    (∀ (solAmt jitoTipAmt : ℚ) (steps : Int) (feePayer : Pk) (keypairs : List Nat)
        (ss : List Ix → Nat) (relay : List (List Ix) → Except String String)
        (b : List (List Ix)) (tx : List Ix),
      b ∈ (distributeSolAndCreateATA solAmt jitoTipAmt steps feePayer keypairs ss relay).2.1 →
      tx ∈ b → 1232 < ss tx →
      "tx too big" ∈
        (distributeSolAndCreateATA solAmt jitoTipAmt steps feePayer keypairs ss relay).2.2) ∧
    (∀ (amountPerWallet jitoTipAmt : ℚ) (steps : Int) (feePayer : Pk) (keypairs : List Nat)
        (ss ss' : List Ix → Nat) (relay : List (List Ix) → Except String String),
      (distributeWSOL amountPerWallet jitoTipAmt steps feePayer keypairs ss relay).1 =
        (distributeWSOL amountPerWallet jitoTipAmt steps feePayer keypairs ss' relay).1 ∧
      (distributeWSOL amountPerWallet jitoTipAmt steps feePayer keypairs ss relay).2.1 =
        (distributeWSOL amountPerWallet jitoTipAmt steps feePayer keypairs ss' relay).2.1) ∧
    (∀ (amountPerWallet jitoTipAmt : ℚ) (steps : Int) (feePayer : Pk) (keypairs : List Nat)
        (ss : List Ix → Nat) (relay : List (List Ix) → Except String String)
        (b : List (List Ix)) (tx : List Ix),
      b ∈ (distributeWSOL amountPerWallet jitoTipAmt steps feePayer keypairs ss relay).2.1 →
      tx ∈ b → 1232 < ss tx →
      "tx too big" ∈
        (distributeWSOL amountPerWallet jitoTipAmt steps feePayer keypairs ss relay).2.2) ∧
    (∀ (jitoTipSOL : ℚ) (keypairs : List Nat) (bal : Nat → Int) (ss : List Ix → Nat)
        (relay : List (List Ix) → Except String String) (m : String),
      createReturnsLoop keypairs.length bal
          ((round (jitoTipSOL * LAMPORTS_PER_SOL) : ℤ) : ℚ) ss 0 keypairs =
        Except.error m →
      createReturns jitoTipSOL keypairs bal ss relay = (⟨false, none, m, none⟩, []) ∧
        ∃ nn, 1232 < nn ∧ m = s!"Tx too big: {nn} bytes") ∧
    (∀ (total : Nat) (bal : Nat → Int) (tipLam : ℚ) (ss : List Ix → Nat) (i : Nat)
        (rem : List Nat) (txs : List (List Ix)),
      createReturnsLoop total bal tipLam ss i rem = Except.ok txs →
      ∀ tx ∈ txs, ss tx ≤ 1232) ∧
    (∀ (keypairs : List Nat) (tipLam : ℚ) (ss : List Ix → Nat)
        (relay : List (List Ix) → Except String String) (m : String),
      buildCycleLoop keypairs.length tipLam ss 0 keypairs = Except.error m →
      executeSwapCycle keypairs true tipLam ss relay = (Except.error m, []) ∧
        ∃ (j nn : Nat), 1232 < nn ∧ m = s!"Tx {j} too big ({nn} bytes)") ∧
    (∀ (total : Nat) (tipLam : ℚ) (ss : List Ix → Nat) (i : Nat) (rem : List Nat)
        (txs : List (List Ix)),
      buildCycleLoop total tipLam ss i rem = Except.ok txs → ∀ tx ∈ txs, ss tx ≤ 1232) := by
  refine ⟨distributeSolAndCreateATA_size_independent, ?_,
    distributeWSOL_size_independent, ?_, ?_, ?_, ?_, ?_⟩
  · intro solAmt jitoTipAmt steps fp kps ss relay b tx hb htx hbig
    exact distributeSolAndCreateATA_oversize_logged solAmt jitoTipAmt steps fp kps ss relay
      hb htx hbig
  · intro amt jitoTipAmt steps fp kps ss relay b tx hb htx hbig
    exact distributeWSOL_oversize_logged amt jitoTipAmt steps fp kps ss relay hb htx hbig
  · intro jts kps bal ss relay m hloop
    exact ⟨createReturns_oversize_surfaced jts kps bal ss relay m hloop,
      createReturnsLoop_error_form _ bal _ ss kps.length kps 0 m le_rfl hloop⟩
  · intro total bal tipLam ss i rem txs hloop
    exact createReturnsLoop_ok_sizes total bal tipLam ss rem.length rem i txs le_rfl hloop
  · intro kps tipLam ss relay m hloop
    exact ⟨executeSwapCycle_oversize_surfaced kps tipLam ss relay m hloop,
      buildCycleLoop_error_form kps.length tipLam ss kps 0 m hloop⟩
  · intro total tipLam ss i rem txs hloop
    exact buildCycleLoop_ok_sizes total tipLam ss rem i txs hloop

/-- Witness for C1 (amended): the hypothesis-bearing conjuncts applied at
concrete oversized (size 2000) and in-bounds (size 0) environments. -/
theorem oversize_handling_per_operation_witness :
    ("tx too big" ∈ (distributeSolAndCreateATA 2 7 1 Pk.main [0] (fun _ => 2000)
        fun _ => Except.ok "bid").2.2) ∧
    ("tx too big" ∈ (distributeWSOL 2 7 1 Pk.main [0] (fun _ => 2000)
        fun _ => Except.ok "bid").2.2) ∧
    (createReturns 1 [0] (fun _ => 0) (fun _ => 2000) (fun _ => Except.ok "bid") =
        (⟨false, none, s!"Tx too big: {(2000 : Nat)} bytes", none⟩, []) ∧
      ∃ nn, 1232 < nn ∧
        s!"Tx too big: {(2000 : Nat)} bytes" = s!"Tx too big: {nn} bytes") ∧
    (∀ tx ∈ [[Ix.closeAccount (Pk.ata (Pk.kp 0)) Pk.main (Pk.kp 0),
        Ix.transfer Pk.main Pk.tip 10000000]], (fun _ => (0 : Nat)) tx ≤ 1232) ∧
    (executeSwapCycle [0] true 5 (fun _ => 2000) (fun _ => Except.ok "bid") =
        (Except.error s!"Tx {(1 : Nat)} too big ({(2000 : Nat)} bytes)", []) ∧
      ∃ (j nn : Nat), 1232 < nn ∧
        s!"Tx {(1 : Nat)} too big ({(2000 : Nat)} bytes)" = s!"Tx {j} too big ({nn} bytes)") ∧
    (∀ tx ∈ [[Ix.createATAIdempotent (Pk.kp 0) (Pk.kp 0), Ix.swap (Pk.kp 0) false,
        Ix.swap (Pk.kp 0) true, Ix.transfer Pk.main Pk.tip 5]],
      (fun _ => (0 : Nat)) tx ≤ 1232) := by
  obtain ⟨-, h2, -, h4, h5, h6, h7, h8⟩ := oversize_handling_per_operation
  refine ⟨?_, ?_, ?_, ?_, ?_, ?_⟩
  · refine h2 2 7 1 Pk.main [0] (fun _ => 2000) (fun _ => Except.ok "bid")
      [[Ix.transfer Pk.main (Pk.kp 0) 2000000000],
        [Ix.createATAIdempotent Pk.main (Pk.kp 0), Ix.transfer Pk.main Pk.tip 7]]
      [Ix.transfer Pk.main (Pk.kp 0) 2000000000] ?_ (by simp) (by norm_num)
    norm_num [distributeSolAndCreateATA, solIxsFor, ataIxsFor, chunkArray, chunkArrayLoop,
      addTipToLast, addTipLoop, createAndSignVersionedTx, tipIx, LAMPORTS_PER_SOL]
  · refine h4 2 7 1 Pk.main [0] (fun _ => 2000) (fun _ => Except.ok "bid")
      [[Ix.syncNative (Pk.ata (Pk.kp 0)),
        Ix.tokenTransfer (Pk.ata Pk.main) (Pk.ata (Pk.kp 0)) Pk.main 2000000000,
        Ix.transfer Pk.main Pk.tip 7]]
      [Ix.syncNative (Pk.ata (Pk.kp 0)),
        Ix.tokenTransfer (Pk.ata Pk.main) (Pk.ata (Pk.kp 0)) Pk.main 2000000000,
        Ix.transfer Pk.main Pk.tip 7] ?_ (by simp) (by norm_num)
    norm_num [distributeWSOL, distributeWSOLChunks, wsolIxsFor, chunkArray, chunkArrayLoop,
      addTipToLast, addTipLoop, createAndSignVersionedTx, tipIx, LAMPORTS_PER_SOL]
  · refine h5 1 [0] (fun _ => 0) (fun _ => 2000) (fun _ => Except.ok "bid")
      s!"Tx too big: {(2000 : Nat)} bytes" ?_
    norm_num [createReturnsLoop, returnIxsForChunk, returnIxsForKp, tipIx]
  · refine h6 1 (fun _ => 0) 10000000 (fun _ => 0) 0 [0]
      [[Ix.closeAccount (Pk.ata (Pk.kp 0)) Pk.main (Pk.kp 0),
        Ix.transfer Pk.main Pk.tip 10000000]] ?_
    norm_num [createReturnsLoop, returnIxsForChunk, returnIxsForKp, tipIx]
  · refine h7 [0] 5 (fun _ => 2000) (fun _ => Except.ok "bid")
      s!"Tx {(1 : Nat)} too big ({(2000 : Nat)} bytes)" ?_
    norm_num [buildCycleLoop, cycleBaseIxs, tipIx]
  · refine h8 1 5 (fun _ => 0) 0 [0]
      [[Ix.createATAIdempotent (Pk.kp 0) (Pk.kp 0), Ix.swap (Pk.kp 0) false,
        Ix.swap (Pk.kp 0) true, Ix.transfer Pk.main Pk.tip 5]] ?_
    norm_num [buildCycleLoop, cycleBaseIxs, tipIx]

/-- **C3.** In every bundle handed to the relay by `distributeWSOL`,
`createReturns` and `executeSwapCycle`, the tip transfer instruction occurs
exactly once: as the final instruction of the final chunk (transaction), and
no earlier chunk contains a tip instruction.  (`executeSwapCycle` is invoked
by `volume` only with a non-empty keypair list, reflected in its hypothesis.) -/
theorem tip_appended_to_last_chunk_only :
    (∀ (amountPerWallet jitoTipAmt : ℚ) (steps : Int) (feePayer : Pk) (keypairs : List Nat)
        (ss : List Ix → Nat) (relay : List (List Ix) → Except String String),
      ∀ b ∈ (distributeWSOL amountPerWallet jitoTipAmt steps feePayer keypairs ss relay).2.1,
        TipLast b) ∧
    (∀ (jitoTipSOL : ℚ) (keypairs : List Nat) (bal : Nat → Int) (ss : List Ix → Nat)
        (relay : List (List Ix) → Except String String),
      ∀ b ∈ (createReturns jitoTipSOL keypairs bal ss relay).2, TipLast b) ∧
    (∀ (keypairs : List Nat) (poolKeysOk : Bool) (tipLamports : ℚ) (ss : List Ix → Nat)
        (relay : List (List Ix) → Except String String), keypairs ≠ [] →
      ∀ b ∈ (executeSwapCycle keypairs poolKeysOk tipLamports ss relay).2, TipLast b) :=
  ⟨distributeWSOL_sent_tipLast, createReturns_sent_tipLast,
    fun kps ok tl ss relay hne => executeSwapCycle_sent_tipLast kps ok tl ss relay hne⟩

/-- Witness for C3: the concrete bundles the three operations submit on small
inputs all satisfy `TipLast`. -/
theorem tip_appended_to_last_chunk_only_witness :
    TipLast [[Ix.syncNative (Pk.ata (Pk.kp 0)),
      Ix.tokenTransfer (Pk.ata Pk.main) (Pk.ata (Pk.kp 0)) Pk.main 2000000000,
      Ix.transfer Pk.main Pk.tip 7]] ∧
    TipLast [[Ix.closeAccount (Pk.ata (Pk.kp 0)) Pk.main (Pk.kp 0),
      Ix.transfer Pk.main Pk.tip 10000000]] ∧
    TipLast [[Ix.createATAIdempotent (Pk.kp 0) (Pk.kp 0), Ix.swap (Pk.kp 0) false,
      Ix.swap (Pk.kp 0) true, Ix.transfer Pk.main Pk.tip 5]] := by
  obtain ⟨h1, h2, h3⟩ := tip_appended_to_last_chunk_only
  refine ⟨h1 2 7 1 Pk.main [0] (fun _ => 0) (fun _ => Except.ok "b") _ ?_,
    h2 (1 / 100) [0] (fun _ => 0) (fun _ => 0) (fun _ => Except.ok "b") _ ?_,
    h3 [0] true 5 (fun _ => 0) (fun _ => Except.ok "b") (by simp) _ ?_⟩
  · norm_num [distributeWSOL, distributeWSOLChunks, wsolIxsFor, chunkArray, chunkArrayLoop,
      addTipToLast, addTipLoop, createAndSignVersionedTx, tipIx, LAMPORTS_PER_SOL]
  · norm_num [createReturns, createReturnsLoop, returnIxsForChunk, returnIxsForKp, tipIx,
      round_eq, LAMPORTS_PER_SOL]
  · norm_num [executeSwapCycle, buildCycleLoop, cycleBaseIxs, tipIx]

/-- **C2.** For every array of `N` elements and every chunk size `K ≥ 1`,
`chunkArray` produces `⌈N/K⌉` chunks, each of length at most `K`, whose
in-order concatenation is the original array (no element duplicated or
dropped, order preserved). -/
theorem chunkArray_spec {α : Type _} (l : List α) (k : Nat) (hk : 1 ≤ k) :
    (VolumeBot.chunkArray l k).length = (l.length + k - 1) / k ∧
      (∀ c ∈ VolumeBot.chunkArray l k, c.length ≤ k) ∧
      (VolumeBot.chunkArray l k).flatten = l :=
  ⟨VolumeBot.chunkArray_length l k hk, VolumeBot.chunkArray_mem_length_le l k,
    VolumeBot.chunkArray_flatten l k hk⟩

/-- Witness for C2 at `l = [1,2,3,4,5]`, `k = 2`. -/
theorem chunkArray_spec_witness :
    (VolumeBot.chunkArray [1, 2, 3, 4, 5] 2).length = (5 + 2 - 1) / 2 ∧
      (∀ c ∈ VolumeBot.chunkArray [1, 2, 3, 4, 5] 2, c.length ≤ 2) ∧
      (VolumeBot.chunkArray [1, 2, 3, 4, 5] 2).flatten = [1, 2, 3, 4, 5] :=
  chunkArray_spec [1, 2, 3, 4, 5] 2 (by decide)

namespace VolumeBot

theorem createReturns_relay_error (jts : ℚ) (kps : List Nat) (bal : Nat → Int)
    (ss : List Ix → Nat) (relay : List (List Ix) → Except String String)
    (txns : List (List Ix)) (e : String) (hk : kps ≠ [])
    (hloop : createReturnsLoop kps.length bal
        ((round (jts * LAMPORTS_PER_SOL) : ℤ) : ℚ) ss 0 kps = Except.ok txns)
    (hrel : relay txns = Except.error e) :
    createReturns jts kps bal ss relay =
      (⟨false, none, "Bundle failed: " ++ e, none⟩, [txns]) := by
  simp only [createReturns]
  rw [if_neg (fun h => hk (List.length_eq_zero.mp h)), hloop]
  simp only [hrel]

theorem runCycles_firstError (kps : List Nat) (tipLam : ℚ) (env : Nat → CycleEnv)
    (ids : Nat → String) (e : String) :
    ∀ (k c n : Nat), k < n →
      (∀ j, j < k →
        (executeSwapCycle kps (env (c + j)).poolKeysOk tipLam (env (c + j)).serializeSize
          (env (c + j)).relay).1 = Except.ok (ids (c + j))) →
      (executeSwapCycle kps (env (c + k)).poolKeysOk tipLam (env (c + k)).serializeSize
        (env (c + k)).relay).1 = Except.error e →
      (runCycles kps tipLam env c n).1 = ((List.range k).map fun j => ids (c + j), some e) := by
  intro k
  induction k with
  | zero =>
    intro c n hkn _ herr
    obtain ⟨n, rfl⟩ : ∃ m, n = m + 1 := ⟨n - 1, by omega⟩
    simp only [Nat.add_zero] at herr
    rcases hcyc : executeSwapCycle kps (env c).poolKeysOk tipLam (env c).serializeSize
      (env c).relay with ⟨r1, sent⟩
    rw [hcyc] at herr
    simp only at herr
    subst herr
    simp only [runCycles, hcyc, List.range_zero, List.map_nil]
  | succ k ih =>
    intro c n hkn hok herr
    obtain ⟨n, rfl⟩ : ∃ m, n = m + 1 := ⟨n - 1, by omega⟩
    have h0 := hok 0 (by omega)
    simp only [Nat.add_zero] at h0
    rcases hcyc : executeSwapCycle kps (env c).poolKeysOk tipLam (env c).serializeSize
      (env c).relay with ⟨r1, sent⟩
    rw [hcyc] at h0
    simp only at h0
    subst h0
    have ihr := ih (c + 1) n (by omega)
      (fun j hj => by
        have hx := hok (j + 1) (by omega)
        rwa [show c + (j + 1) = c + 1 + j by omega] at hx)
      (by rwa [show c + (k + 1) = c + 1 + k by omega] at herr)
    simp only [runCycles, hcyc, ihr]
    refine Prod.ext ?_ rfl
    simp only [List.range_succ_eq_map, List.map_cons, Nat.add_zero, List.map_map]
    refine congrArg _ (List.map_congr_left fun a _ => ?_)
    simp only [Function.comp_apply]
    congr 1
    omega

theorem volume_relay_error (marketID : String) (cycles : Int) (delaySec jitoTipSOL : ℚ)
    (kps : List Nat) (env : Nat → CycleEnv) (ids : Nat → String) (e : String) (k : Nat)
    (hvalid : ¬(marketID = "" ∨ cycles ≤ 0 ∨ delaySec < 0 ∨ jitoTipSOL ≤ 0))
    (hkps : ¬kps.length = 0) (hk : k < cycles.toNat)
    (hok : ∀ j, j < k →
      (executeSwapCycle kps (env j).poolKeysOk
        ((round (jitoTipSOL * LAMPORTS_PER_SOL) : ℤ) : ℚ) (env j).serializeSize
        (env j).relay).1 = Except.ok (ids j))
    (herr : (executeSwapCycle kps (env k).poolKeysOk
        ((round (jitoTipSOL * LAMPORTS_PER_SOL) : ℤ) : ℚ) (env k).serializeSize
        (env k).relay).1 = Except.error e) :
    (volume marketID cycles delaySec jitoTipSOL kps env).1 =
      ⟨false, (List.range k).map ids, "Error: " ++ e⟩ := by
  have hfirst := runCycles_firstError kps ((round (jitoTipSOL * LAMPORTS_PER_SOL) : ℤ) : ℚ)
    env ids e k 0 cycles.toNat hk
    (fun j hj => by simpa using hok j hj)
    (by simpa using herr)
  simp only [volume]
  rw [if_neg hvalid, if_neg hkps]
  simp only [hfirst]
  simp

end VolumeBot

/-- **C5.** When bundle submission to the relay throws, the enclosing
operation returns an unsuccessful result whose message reports the failure
(`Bundle failed: …` for `createReturns`, `Error: …` for `volume`), and no
correlation id is produced for the failed bundle: `createReturns` returns
`bundleId = none`, and `volume`'s `bundleIds` holds exactly the ids of the
cycles that succeeded before the failing one. -/
theorem relay_rejection_reported_without_id :
    (∀ (jitoTipSOL : ℚ) (keypairs : List Nat) (bal : Nat → Int) (ss : List Ix → Nat)
        (relay : List (List Ix) → Except String String) (txns : List (List Ix)) (e : String),
      keypairs ≠ [] →
      createReturnsLoop keypairs.length bal
          ((round (jitoTipSOL * LAMPORTS_PER_SOL) : ℤ) : ℚ) ss 0 keypairs =
        Except.ok txns →
      relay txns = Except.error e →
      createReturns jitoTipSOL keypairs bal ss relay =
        (⟨false, none, "Bundle failed: " ++ e, none⟩, [txns])) ∧
    (∀ (marketID : String) (cycles : Int) (delaySec jitoTipSOL : ℚ) (keypairs : List Nat)
        (env : Nat → CycleEnv) (ids : Nat → String) (e : String) (k : Nat),
      ¬(marketID = "" ∨ cycles ≤ 0 ∨ delaySec < 0 ∨ jitoTipSOL ≤ 0) →
      ¬keypairs.length = 0 → k < cycles.toNat →
      (∀ j, j < k →
        (executeSwapCycle keypairs (env j).poolKeysOk
          ((round (jitoTipSOL * LAMPORTS_PER_SOL) : ℤ) : ℚ) (env j).serializeSize
          (env j).relay).1 = Except.ok (ids j)) →
      (executeSwapCycle keypairs (env k).poolKeysOk
          ((round (jitoTipSOL * LAMPORTS_PER_SOL) : ℤ) : ℚ) (env k).serializeSize
          (env k).relay).1 = Except.error e →
      (volume marketID cycles delaySec jitoTipSOL keypairs env).1 =
        ⟨false, (List.range k).map ids, "Error: " ++ e⟩) :=
  ⟨fun jts kps bal ss relay txns e hk hloop hrel =>
      createReturns_relay_error jts kps bal ss relay txns e hk hloop hrel,
    fun mk cycles ds jts kps env ids e k hvalid hkps hk hok herr =>
      volume_relay_error mk cycles ds jts kps env ids e k hvalid hkps hk hok herr⟩

/-- Witness for C5: a rejecting relay makes `createReturns` fail with
`Bundle failed: boom` and no bundle id, and makes `volume` fail at cycle 0
with `Error: boom` and an empty id list. -/
theorem relay_rejection_reported_without_id_witness :
    createReturns 1 [0] (fun _ => 0) (fun _ => 0) (fun _ => Except.error "boom") =
      (⟨false, none, "Bundle failed: " ++ "boom", none⟩,
        [[[Ix.closeAccount (Pk.ata (Pk.kp 0)) Pk.main (Pk.kp 0),
           Ix.transfer Pk.main Pk.tip 1000000000]]]) ∧
    (volume "m" 1 0 1 [0]
        (fun _ => ⟨true, fun _ => 0, fun _ => Except.error "boom"⟩) ).1 =
      ⟨false, [], "Error: " ++ "boom"⟩ := by
  obtain ⟨h1, h2⟩ := relay_rejection_reported_without_id
  constructor
  · refine h1 1 [0] (fun _ => 0) (fun _ => 0) (fun _ => Except.error "boom")
      [[Ix.closeAccount (Pk.ata (Pk.kp 0)) Pk.main (Pk.kp 0),
        Ix.transfer Pk.main Pk.tip 1000000000]] "boom" (by simp) ?_ rfl
    norm_num [createReturnsLoop, returnIxsForChunk, returnIxsForKp, tipIx, round_eq,
      LAMPORTS_PER_SOL]
  · have := h2 "m" 1 0 1 [0] (fun _ => ⟨true, fun _ => 0, fun _ => Except.error "boom"⟩)
      (fun _ => "") "boom" 0 (by push_neg; exact ⟨by decide, by norm_num, by norm_num, by norm_num⟩)
      (by simp) (by norm_num)
      (fun j hj => absurd hj (Nat.not_lt_zero j)) ?_
    · simpa using this
    · norm_num [executeSwapCycle, buildCycleLoop, cycleBaseIxs, tipIx]

namespace VolumeBot

theorem execRound_eq (bs : List ℚ) :
    execRound bs = (specRoundUpdate bs, bs.sum, bs.sum * SWAP_TAX_RATE) := by
  induction bs with
  | nil => simp [execRound, specRoundUpdate]
  | cons b rest ih =>
    simp only [execRound, ih, specRoundUpdate, SWAP_TAX_RATE, List.map_cons, List.sum_cons,
      Prod.mk.injEq]
    refine ⟨trivial, trivial, by ring⟩

theorem simulateRounds_volume (jt : ℚ) :
    ∀ (n : Nat) (bs : List ℚ) (v s : ℚ),
      (simulateRounds jt n bs v s).2.1 = v + specVolume n bs := by
  intro n
  induction n with
  | zero => intro bs v s; simp [simulateRounds, specVolume]
  | succ n ih =>
    intro bs v s
    simp only [simulateRounds, execRound_eq, specVolume]
    rw [ih]
    ring

end VolumeBot

/-- **C4.** For every input accepted by `calculateVolumeAndSolLoss` (validation
passed, so the result is a success), the returned `totalVolumeSOL` equals the
sum over the `executions` rounds of each wallet's balance immediately before
that round's tax deduction, where balances evolve by `b := b - b * 0.005` per
round (`specVolume`, written from the spec's words). -/
theorem totalVolume_eq_sum_of_pretax_balances (solPrice jitoTip : ℚ) (executions : Int)
    (walletAmounts : List ℚ) (d : SimData)
    (h : calculateVolumeAndSolLoss solPrice jitoTip executions walletAmounts =
      SimResult.success d) :
    d.totalVolumeSOL = specVolume executions.toNat walletAmounts := by
  simp only [calculateVolumeAndSolLoss] at h
  split at h
  · cases h
  split at h
  · cases h
  cases h
  show (simulateRounds jitoTip executions.toNat walletAmounts 0 0).2.1 = _
  rw [simulateRounds_volume]
  ring

/-- Witness for C4 at `solPrice = 1`, `jitoTip = 0`, `executions = 1`,
`walletAmounts = [1]`. -/
theorem totalVolume_eq_sum_of_pretax_balances_witness :
    (⟨1, 199/200, 1/200, 1, 1/200, 1, [199/200]⟩ : SimData).totalVolumeSOL =
      specVolume (1 : Int).toNat [1] := by
  refine totalVolume_eq_sum_of_pretax_balances 1 0 1 [1]
    ⟨1, 199/200, 1/200, 1, 1/200, 1, [199/200]⟩ ?_
  norm_num [calculateVolumeAndSolLoss, simulateRounds, execRound, SWAP_TAX_RATE]

/-- Counterexample to **C7** as stated: `jitoTip = 0` is non-positive, yet the
validation (which checks `jitoTip < 0`) accepts it and the call succeeds. -/
theorem simulate_jitoTip_zero_accepted :
    calculateVolumeAndSolLoss 1 0 1 [1] =
      SimResult.success ⟨1, 199/200, 1/200, 1, 1/200, 1, [199/200]⟩ := by
  norm_num [calculateVolumeAndSolLoss, simulateRounds, execRound, SWAP_TAX_RATE]

/-- **C7 (amended).** `calculateVolumeAndSolLoss` returns the unsuccessful
validation result — before any computation or report — whenever `solPrice ≤ 0`,
`jitoTip < 0` (strictly negative; zero is accepted) or `executions ≤ 0`. -/
theorem simulate_validation_rejects (solPrice jitoTip : ℚ) (executions : Int)
    (walletAmounts : List ℚ) (h : solPrice ≤ 0 ∨ jitoTip < 0 ∨ executions ≤ 0) :
    calculateVolumeAndSolLoss solPrice jitoTip executions walletAmounts =
      SimResult.failure "All numeric inputs must be > 0" := by
  simp only [calculateVolumeAndSolLoss]
  rw [if_pos h]

/-- Witness for C7 (amended) at `solPrice = 0`. -/
theorem simulate_validation_rejects_witness :
    calculateVolumeAndSolLoss 0 1 1 [1] =
      SimResult.failure "All numeric inputs must be > 0" :=
  simulate_validation_rejects 0 1 1 [1] (Or.inl le_rfl)

/-- **C6.** `createKeypairs` in `'use'` mode with zero stored keypair files
returns an unsuccessful result with the distinct 'no keypairs found' message
and writes no file: the keypair files and the `keyInfo.json` summary are
untouched (only the user's directory is ensured to exist). -/
theorem createKeypairs_use_empty_no_write (numWallets : ℚ) (gen : Nat → Nat)
    (store : UserStore) (h : store.keypairFiles = []) :
    (createKeypairs KeyMode.use numWallets gen store).1.success = false ∧
    (createKeypairs KeyMode.use numWallets gen store).1.message =
      "No keypairs found. Use \"create\" first." ∧
    (createKeypairs KeyMode.use numWallets gen store).2.keypairFiles = store.keypairFiles ∧
    (createKeypairs KeyMode.use numWallets gen store).2.keyInfo = store.keyInfo := by
  simp [createKeypairs, getUserKeypairsDir, h]

/-- Witness for C6 on a fresh store. -/
theorem createKeypairs_use_empty_no_write_witness :
    (createKeypairs KeyMode.use 5 (fun n => n) ⟨false, [], none⟩).1.success = false ∧
    (createKeypairs KeyMode.use 5 (fun n => n) ⟨false, [], none⟩).1.message =
      "No keypairs found. Use \"create\" first." ∧
    (createKeypairs KeyMode.use 5 (fun n => n) ⟨false, [], none⟩).2.keypairFiles =
      (⟨false, [], none⟩ : UserStore).keypairFiles ∧
    (createKeypairs KeyMode.use 5 (fun n => n) ⟨false, [], none⟩).2.keyInfo =
      (⟨false, [], none⟩ : UserStore).keyInfo :=
  createKeypairs_use_empty_no_write 5 (fun n => n) ⟨false, [], none⟩ rfl

/-- **C8.** `createKeypairs` in `'create'` mode succeeds exactly when
`numWallets` is an integer in `[1, 20]` and the user's directory holds no
keypair file; on failure no keypair file is written, and on success exactly
`numWallets` keypair files are written. -/
theorem createKeypairs_create_spec (numWallets : ℚ) (gen : Nat → Nat) (store : UserStore) :
    ((createKeypairs KeyMode.create numWallets gen store).1.success = true ↔
      (numWallets.isInt ∧ 0 < numWallets ∧ numWallets ≤ 20 ∧ store.keypairFiles = [])) ∧
    ((createKeypairs KeyMode.create numWallets gen store).1.success = false →
      (createKeypairs KeyMode.create numWallets gen store).2.keypairFiles =
        store.keypairFiles) ∧
    ((createKeypairs KeyMode.create numWallets gen store).1.success = true →
      (((createKeypairs KeyMode.create numWallets gen store).2.keypairFiles.length : ℚ) =
        numWallets)) := by
  simp only [createKeypairs, getUserKeypairsDir]
  by_cases h1 : ¬numWallets.isInt ∨ numWallets ≤ 0 ∨ numWallets > 20
  · rw [if_pos h1]
    refine ⟨iff_of_false (by simp) ?_, fun _ => rfl, fun htrue => absurd htrue (by simp)⟩
    rintro ⟨hi, hpos, hle, -⟩
    rcases h1 with h | h | h
    · exact absurd hi h
    · exact absurd hpos (not_lt.mpr h)
    · exact absurd hle (not_le.mpr h)
  · rw [if_neg h1]
    push_neg at h1
    obtain ⟨hi, hpos, hle⟩ := h1
    by_cases h2 : store.keypairFiles.length > 0
    · rw [if_pos h2]
      refine ⟨iff_of_false (by simp) ?_, fun _ => rfl, fun htrue => absurd htrue (by simp)⟩
      rintro ⟨-, -, -, hnil⟩
      rw [hnil] at h2
      simp at h2
    · rw [if_neg h2]
      have hnil : store.keypairFiles = [] := by
        rcases hx : store.keypairFiles with - | ⟨a, t⟩
        · rfl
        · rw [hx] at h2; simp at h2
      refine ⟨iff_of_true rfl ⟨hi, hpos, hle, hnil⟩,
        fun hfalse => absurd hfalse (by simp), fun _ => ?_⟩
      simp only [updatePoolInfo, generateWallets, List.length_map, List.length_range]
      have hd : numWallets.den = 1 := by
        rw [Rat.isInt] at hi
        simpa using hi
      have hnum : (numWallets.num : ℚ) = numWallets := by
        conv_rhs => rw [← Rat.num_div_den numWallets]
        rw [hd]
        simp
      have hposn : (0 : ℤ) ≤ numWallets.num := (Rat.num_pos.mpr hpos).le
      rw [show ((numWallets.num.toNat : Nat) : ℚ) = ((numWallets.num.toNat : ℤ) : ℚ) by
        push_cast
        ring]
      rw [Int.toNat_of_nonneg hposn, hnum]

/-- Witness for C8 at `numWallets = 3` on a fresh store. -/
theorem createKeypairs_create_spec_witness :
    ((createKeypairs KeyMode.create 3 (fun n => n) ⟨false, [], none⟩).1.success = true ↔
      ((3 : ℚ).isInt ∧ (0 : ℚ) < 3 ∧ (3 : ℚ) ≤ 20 ∧
        (⟨false, [], none⟩ : UserStore).keypairFiles = [])) ∧
    ((createKeypairs KeyMode.create 3 (fun n => n) ⟨false, [], none⟩).1.success = false →
      (createKeypairs KeyMode.create 3 (fun n => n) ⟨false, [], none⟩).2.keypairFiles =
        (⟨false, [], none⟩ : UserStore).keypairFiles) ∧
    ((createKeypairs KeyMode.create 3 (fun n => n) ⟨false, [], none⟩).1.success = true →
      (((createKeypairs KeyMode.create 3 (fun n => n) ⟨false, [], none⟩).2.keypairFiles.length :
        ℚ) = 3)) :=
  createKeypairs_create_spec 3 (fun n => n) ⟨false, [], none⟩

namespace VolumeBot

theorem transfer_not_mem_tip (tipLam : ℚ) (c : Prop) [Decidable c] (k : Nat) (q : ℚ) :
    Ix.transfer (Pk.kp k) Pk.main q ∉ (if c then [tipIx Pk.main tipLam] else []) := by
  intro h
  split at h
  · have heq := List.mem_singleton.mp h
    injection heq with h1 h2 h3
    cases h1
  · exact List.not_mem_nil _ h

theorem transfer_not_mem_tipList (tipLam : ℚ) (k : Nat) (q : ℚ) :
    Ix.transfer (Pk.kp k) Pk.main q ∉ [tipIx Pk.main tipLam] := by
  intro h
  have heq := List.mem_singleton.mp h
  injection heq with h1 h2 h3
  cases h1

theorem mem_returnIxsForChunk_transfer (bal : Nat → Int) (chunk : List Nat) (k : Nat)
    (q : ℚ) :
    Ix.transfer (Pk.kp k) Pk.main q ∈ returnIxsForChunk bal chunk ↔
      (k ∈ chunk ∧ bal k > 5000 ∧ q = ((bal k - 5000 : Int) : ℚ)) := by
  simp only [returnIxsForChunk, List.mem_flatMap]
  constructor
  · rintro ⟨x, hx, hmem⟩
    simp only [returnIxsForKp, List.cons_append, List.nil_append, List.mem_cons] at hmem
    rcases hmem with h | h
    · cases h
    · by_cases hb : bal x > 5000
      · rw [if_pos hb] at h
        have heq := List.mem_singleton.mp h
        injection heq with h1 h2 h3
        obtain rfl : k = x := by injection h1
        exact ⟨hx, hb, h3⟩
      · rw [if_neg hb] at h
        exact absurd h (List.not_mem_nil _)
  · rintro ⟨hk, hb, rfl⟩
    refine ⟨k, hk, ?_⟩
    simp [returnIxsForKp, if_pos hb]

theorem createReturnsLoop_transfer_iff (total : Nat) (bal : Nat → Int) (tipLam : ℚ)
    (ss : List Ix → Nat) :
    ∀ (n : Nat) (rem : List Nat) (i : Nat) (txs : List (List Ix)), rem.length ≤ n →
      createReturnsLoop total bal tipLam ss i rem = Except.ok txs →
      ∀ (k : Nat) (q : ℚ),
        (Ix.transfer (Pk.kp k) Pk.main q ∈ txs.flatten ↔
          (k ∈ rem ∧ bal k > 5000 ∧ q = ((bal k - 5000 : Int) : ℚ))) := by
  intro n
  induction n with
  | zero =>
    intro rem i txs hn heq
    obtain rfl : rem = [] := List.length_eq_zero.mp (Nat.le_zero.mp hn)
    cases heq
    simp
  | succ n ih =>
    intro rem i txs hn heq k q
    match rem with
    | [] =>
      cases heq
      simp
    | [k0] =>
      simp only [createReturnsLoop] at heq
      split at heq
      all_goals split at heq
      · cases heq
      · cases heq
        simp only [List.flatten_cons, List.flatten_nil, List.append_nil, List.mem_append]
        rw [or_iff_left (transfer_not_mem_tipList tipLam k q), mem_returnIxsForChunk_transfer]
      · cases heq
      · cases heq
        simp only [List.flatten_cons, List.flatten_nil, List.append_nil]
        rw [mem_returnIxsForChunk_transfer]
    | [k0, k1] =>
      simp only [createReturnsLoop] at heq
      split at heq
      all_goals split at heq
      · cases heq
      · cases heq
        simp only [List.flatten_cons, List.flatten_nil, List.append_nil, List.mem_append]
        rw [or_iff_left (transfer_not_mem_tipList tipLam k q), mem_returnIxsForChunk_transfer]
      · cases heq
      · cases heq
        simp only [List.flatten_cons, List.flatten_nil, List.append_nil]
        rw [mem_returnIxsForChunk_transfer]
    | k0 :: k1 :: r :: rest =>
      have hrest : (r :: rest).length ≤ n := by
        simp only [List.length_cons] at hn ⊢
        omega
      simp only [createReturnsLoop] at heq
      split at heq
      all_goals split at heq
      · cases heq
      · split at heq
        · cases heq
        · rename_i txs0 hrec
          cases heq
          simp only [List.flatten_cons, List.mem_append, or_assoc]
          rw [or_iff_right (transfer_not_mem_tipList tipLam k q),
            mem_returnIxsForChunk_transfer, ih (r :: rest) (i + 2) txs0 hrest hrec k q]
          simp only [List.mem_cons, List.not_mem_nil, or_false]
          tauto
      · cases heq
      · split at heq
        · cases heq
        · rename_i txs0 hrec
          cases heq
          simp only [List.flatten_cons, List.append_nil, List.mem_append]
          rw [mem_returnIxsForChunk_transfer, ih (r :: rest) (i + 2) txs0 hrest hrec k q]
          simp only [List.mem_cons, List.not_mem_nil, or_false]
          tauto

end VolumeBot

/-- **C9.** In `createReturns`, whenever a bundle is built and handed to the
relay, a SOL-return transfer from a stored wallet back to the main wallet
appears in it exactly for the wallets whose queried balance exceeds 5000
lamports, and its amount is exactly `balance - 5000` (5000 lamports are left
behind). -/
theorem createReturns_transfer_iff (jitoTipSOL : ℚ) (keypairs : List Nat)
    (bal : Nat → Int) (ss : List Ix → Nat) (relay : List (List Ix) → Except String String)
    (r : ReclaimResult) (txns : List (List Ix))
    (h : createReturns jitoTipSOL keypairs bal ss relay = (r, [txns])) (k : Nat) (q : ℚ) :
    Ix.transfer (Pk.kp k) Pk.main q ∈ txns.flatten ↔
      (k ∈ keypairs ∧ bal k > 5000 ∧ q = ((bal k - 5000 : Int) : ℚ)) := by
  simp only [createReturns] at h
  split at h
  · injection h with h1 h2
    cases h2
  · split at h
    · injection h with h1 h2
      cases h2
    · rename_i txs hloop
      split at h <;>
      · injection h with h1 h2
        injection h2 with h3 h4
        subst h3
        exact createReturnsLoop_transfer_iff keypairs.length bal _ ss keypairs.length
          keypairs 0 txs le_rfl hloop k q

/-- Witness for C9: two wallets, one with 10000 lamports (returned minus the
5000 dust) and one with 0 (no transfer generated). -/
theorem createReturns_transfer_iff_witness :
    (Ix.transfer (Pk.kp 0) Pk.main 5000 ∈
      ([[Ix.closeAccount (Pk.ata (Pk.kp 0)) Pk.main (Pk.kp 0),
         Ix.transfer (Pk.kp 0) Pk.main 5000,
         Ix.closeAccount (Pk.ata (Pk.kp 1)) Pk.main (Pk.kp 1),
         Ix.transfer Pk.main Pk.tip 1000000000]] : List (List Ix)).flatten ↔
      (0 ∈ [0, 1] ∧ (fun kk => if kk = 0 then (10000 : Int) else 0) 0 > 5000 ∧
        (5000 : ℚ) = (((fun kk => if kk = 0 then (10000 : Int) else 0) 0 - 5000 : Int) : ℚ))) ∧
    (Ix.transfer (Pk.kp 1) Pk.main 0 ∈
      ([[Ix.closeAccount (Pk.ata (Pk.kp 0)) Pk.main (Pk.kp 0),
         Ix.transfer (Pk.kp 0) Pk.main 5000,
         Ix.closeAccount (Pk.ata (Pk.kp 1)) Pk.main (Pk.kp 1),
         Ix.transfer Pk.main Pk.tip 1000000000]] : List (List Ix)).flatten ↔
      (1 ∈ [0, 1] ∧ (fun kk => if kk = 0 then (10000 : Int) else 0) 1 > 5000 ∧
        (0 : ℚ) = (((fun kk => if kk = 0 then (10000 : Int) else 0) 1 - 5000 : Int) : ℚ))) := by
  have hmain : createReturns 1 [0, 1] (fun kk => if kk = 0 then (10000 : Int) else 0)
      (fun _ => 0) (fun _ => Except.error "x") =
      (⟨false, none, "Bundle failed: " ++ "x", none⟩,
        [[[Ix.closeAccount (Pk.ata (Pk.kp 0)) Pk.main (Pk.kp 0),
           Ix.transfer (Pk.kp 0) Pk.main 5000,
           Ix.closeAccount (Pk.ata (Pk.kp 1)) Pk.main (Pk.kp 1),
           Ix.transfer Pk.main Pk.tip 1000000000]]]) := by
    norm_num [createReturns, createReturnsLoop, returnIxsForChunk, returnIxsForKp, tipIx,
      round_eq, LAMPORTS_PER_SOL]
  exact ⟨createReturns_transfer_iff 1 [0, 1] (fun kk => if kk = 0 then (10000 : Int) else 0)
      (fun _ => 0) (fun _ => Except.error "x") _ _ hmain 0 5000,
    createReturns_transfer_iff 1 [0, 1] (fun kk => if kk = 0 then (10000 : Int) else 0)
      (fun _ => 0) (fun _ => Except.error "x") _ _ hmain 1 0⟩

namespace VolumeBot

theorem mem_addTipLoop (t : Ix) :
    ∀ (cs : List (List Ix)) (i total : Nat) (c : List Ix), c ∈ addTipLoop total t i cs →
      ∀ ix ∈ c, (∃ c' ∈ cs, ix ∈ c') ∨ ix = t := by
  intro cs
  induction cs with
  | nil => intro i total c hc; cases hc
  | cons c0 rest ih =>
    intro i total c hc ix hix
    simp only [addTipLoop, List.mem_cons] at hc
    rcases hc with rfl | hc
    · by_cases hcond : i = total - 1
      · rw [if_pos hcond] at hix
        rcases List.mem_append.mp hix with h | h
        · exact Or.inl ⟨c0, List.mem_cons_self c0 rest, h⟩
        · exact Or.inr (List.mem_singleton.mp h)
      · rw [if_neg hcond] at hix
        exact Or.inl ⟨c0, List.mem_cons_self c0 rest, hix⟩
    · rcases ih (i + 1) total c hc ix hix with ⟨c', hc', hix'⟩ | h
      · exact Or.inl ⟨c', List.mem_cons_of_mem c0 hc', hix'⟩
      · exact Or.inr h

theorem mem_addTipToLast (t : Ix) (cs : List (List Ix)) (c : List Ix)
    (hc : c ∈ addTipToLast cs t) : ∀ ix ∈ c, (∃ c' ∈ cs, ix ∈ c') ∨ ix = t :=
  mem_addTipLoop t cs 0 cs.length c hc

theorem distributeSolAndCreateATA_sent_mem (solAmt tip : ℚ) (steps : Int) (fp : Pk)
    (kps : List Nat) (ss : List Ix → Nat) (relay : List (List Ix) → Except String String)
    {b : List (List Ix)}
    (hb : b ∈ (distributeSolAndCreateATA solAmt tip steps fp kps ss relay).2.1)
    {tx : List Ix} (htx : tx ∈ b) :
    tx ∈ chunkArray (solIxsFor fp solAmt (kps.take steps.toNat)) 10 ∨
      tx ∈ addTipToLast (chunkArray (ataIxsFor fp (kps.take steps.toNat)) 10)
        (tipIx fp tip) := by
  simp only [distributeSolAndCreateATA, builtTxns_eq] at hb
  by_cases h1 : solAmt ≤ 0 ∨ tip ≤ 0 ∨ steps ≤ 0
  · rw [if_pos h1] at hb; cases hb
  rw [if_neg h1] at hb
  by_cases h2 : (kps.take steps.toNat).length = 0
  · rw [if_pos h2] at hb; cases hb
  rw [if_neg h2] at hb
  revert hb
  cases hrel : relay (chunkArray (solIxsFor fp solAmt (kps.take steps.toNat)) 10 ++
      addTipToLast (chunkArray (ataIxsFor fp (kps.take steps.toNat)) 10) (tipIx fp tip)) <;>
    · intro hb
      rcases List.mem_singleton.mp hb with rfl
      exact List.mem_append.mp htx

theorem distributeWSOL_sent_mem (amt tip : ℚ) (steps : Int) (fp : Pk)
    (kps : List Nat) (ss : List Ix → Nat) (relay : List (List Ix) → Except String String)
    {b : List (List Ix)}
    (hb : b ∈ (distributeWSOL amt tip steps fp kps ss relay).2.1)
    {tx : List Ix} (htx : tx ∈ b) :
    tx ∈ distributeWSOLChunks fp amt tip (kps.take steps.toNat) := by
  simp only [distributeWSOL, builtTxns_eq] at hb
  by_cases h1 : amt ≤ 0 ∨ tip ≤ 0 ∨ steps ≤ 0
  · rw [if_pos h1] at hb; cases hb
  rw [if_neg h1] at hb
  by_cases h2 : (kps.take steps.toNat).length = 0
  · rw [if_pos h2] at hb; cases hb
  rw [if_neg h2] at hb
  revert hb
  cases hrel : relay (distributeWSOLChunks fp amt tip (kps.take steps.toNat)) <;>
    · intro hb
      rcases List.mem_singleton.mp hb with rfl
      exact htx

theorem solIxsFor_target (fp : Pk) (amt : ℚ) (used : List Nat) {ix : Ix}
    (h : ix ∈ solIxsFor fp amt used) :
    ix.isTipTransfer = false ∧ ∃ k ∈ used, ix.walletTarget = some k := by
  simp only [solIxsFor, List.mem_map] at h
  obtain ⟨k, hk, rfl⟩ := h
  exact ⟨rfl, k, hk, rfl⟩

theorem ataIxsFor_target (fp : Pk) (used : List Nat) {ix : Ix}
    (h : ix ∈ ataIxsFor fp used) :
    ix.isTipTransfer = false ∧ ∃ k ∈ used, ix.walletTarget = some k := by
  simp only [ataIxsFor, List.mem_map] at h
  obtain ⟨k, hk, rfl⟩ := h
  exact ⟨rfl, k, hk, rfl⟩

theorem wsolIxsFor_target (fp : Pk) (amt : ℚ) (used : List Nat) {ix : Ix}
    (h : ix ∈ wsolIxsFor fp amt used) :
    ix.isTipTransfer = false ∧ ∃ k ∈ used, ix.walletTarget = some k := by
  simp only [wsolIxsFor, List.mem_flatMap, List.mem_cons, List.mem_singleton] at h
  obtain ⟨k, hk, hcase⟩ := h
  rcases hcase with rfl | hcase
  · exact ⟨rfl, k, hk, rfl⟩
  rcases hcase with rfl | hcase
  · exact ⟨rfl, k, hk, rfl⟩
  exact absurd hcase (List.not_mem_nil ix)

theorem target_conds_of_mem {used : List Nat} {ix : Ix} {k : Nat}
    (hk : k ∈ used) (htgt : ix.walletTarget = some k) :
    (ix.isTipTransfer = false → ∃ j ∈ used, ix.walletTarget = some j) ∧
    ∀ w, w ∉ used → ix.walletTarget ≠ some w := by
  refine ⟨fun _ => ⟨k, hk, htgt⟩, fun w hw hws => ?_⟩
  rw [htgt] at hws
  injection hws with hkw
  exact hw (hkw ▸ hk)

theorem target_conds_of_tip (used : List Nat) (fp : Pk) (amt : ℚ) :
    ((tipIx fp amt).isTipTransfer = false →
      ∃ j ∈ used, (tipIx fp amt).walletTarget = some j) ∧
    ∀ w, w ∉ used → (tipIx fp amt).walletTarget ≠ some w := by
  constructor
  · intro hfalse
    have h := tipIx_isTip fp amt
    rw [hfalse] at h
    cases h
  · intro w hw hws
    simp [tipIx, Ix.walletTarget] at hws

end VolumeBot

/-- **C10.** `distributeSolAndCreateATA` and `distributeWSOL` operate only on
the first `min(steps, number of stored keypairs)` keypairs
(`keypairs.take steps.toNat`, mirroring `loadKeypairs().slice(0, steps)`):
every non-tip instruction in every submitted bundle targets a wallet of that
prefix, and a wallet outside the prefix is targeted by no instruction. -/
theorem distribute_operations_target_prefix :
    (∀ (solAmt jitoTipAmt : ℚ) (steps : Int) (feePayer : Pk) (keypairs : List Nat)
        (ss : List Ix → Nat) (relay : List (List Ix) → Except String String),
      ∀ b ∈ (distributeSolAndCreateATA solAmt jitoTipAmt steps feePayer keypairs
          ss relay).2.1,
      ∀ tx ∈ b, ∀ ix ∈ tx,
        (ix.isTipTransfer = false →
          ∃ k ∈ keypairs.take steps.toNat, ix.walletTarget = some k) ∧
        ∀ w, w ∉ keypairs.take steps.toNat → ix.walletTarget ≠ some w) ∧
    (∀ (amountPerWallet jitoTipAmt : ℚ) (steps : Int) (feePayer : Pk) (keypairs : List Nat)
        (ss : List Ix → Nat) (relay : List (List Ix) → Except String String),
      ∀ b ∈ (distributeWSOL amountPerWallet jitoTipAmt steps feePayer keypairs ss relay).2.1,
      ∀ tx ∈ b, ∀ ix ∈ tx,
        (ix.isTipTransfer = false →
          ∃ k ∈ keypairs.take steps.toNat, ix.walletTarget = some k) ∧
        ∀ w, w ∉ keypairs.take steps.toNat → ix.walletTarget ≠ some w) := by
  constructor
  · intro solAmt jitoTipAmt steps fp kps ss relay b hb tx htx ix hix
    rcases distributeSolAndCreateATA_sent_mem solAmt jitoTipAmt steps fp kps ss relay
        hb htx with h | h
    · obtain ⟨-, k, hk, htgt⟩ :=
        solIxsFor_target fp solAmt _ (mem_of_mem_chunkArray (by omega) h hix)
      exact target_conds_of_mem hk htgt
    · rcases mem_addTipToLast _ _ tx h ix hix with ⟨c', hc', hix'⟩ | rfl
      · obtain ⟨-, k, hk, htgt⟩ :=
          ataIxsFor_target fp _ (mem_of_mem_chunkArray (by omega) hc' hix')
        exact target_conds_of_mem hk htgt
      · exact target_conds_of_tip _ fp jitoTipAmt
  · intro amt jitoTipAmt steps fp kps ss relay b hb tx htx ix hix
    have h := distributeWSOL_sent_mem amt jitoTipAmt steps fp kps ss relay hb htx
    rcases mem_addTipToLast _ _ tx h ix hix with ⟨c', hc', hix'⟩ | rfl
    · obtain ⟨-, k, hk, htgt⟩ :=
        wsolIxsFor_target fp amt _ (mem_of_mem_chunkArray (by omega) hc' hix')
      exact target_conds_of_mem hk htgt
    · exact target_conds_of_tip _ fp jitoTipAmt

/-- Witness for C10: concrete instructions from both operations target wallet
0, the only member of the prefix. -/
theorem distribute_operations_target_prefix_witness :
    (((Ix.transfer Pk.main (Pk.kp 0) 2000000000).isTipTransfer = false →
      ∃ k ∈ ([0] : List Nat).take (1 : Int).toNat,
        (Ix.transfer Pk.main (Pk.kp 0) 2000000000).walletTarget = some k) ∧
      ∀ w, w ∉ ([0] : List Nat).take (1 : Int).toNat →
        (Ix.transfer Pk.main (Pk.kp 0) 2000000000).walletTarget ≠ some w) ∧
    (((Ix.syncNative (Pk.ata (Pk.kp 0))).isTipTransfer = false →
      ∃ k ∈ ([0] : List Nat).take (1 : Int).toNat,
        (Ix.syncNative (Pk.ata (Pk.kp 0))).walletTarget = some k) ∧
      ∀ w, w ∉ ([0] : List Nat).take (1 : Int).toNat →
        (Ix.syncNative (Pk.ata (Pk.kp 0))).walletTarget ≠ some w) := by
  obtain ⟨h1, h2⟩ := distribute_operations_target_prefix
  constructor
  · refine h1 2 7 1 Pk.main [0] (fun _ => 0) (fun _ => Except.ok "b")
      [[Ix.transfer Pk.main (Pk.kp 0) 2000000000],
        [Ix.createATAIdempotent Pk.main (Pk.kp 0), Ix.transfer Pk.main Pk.tip 7]]
      ?_ [Ix.transfer Pk.main (Pk.kp 0) 2000000000] (by simp)
      (Ix.transfer Pk.main (Pk.kp 0) 2000000000) (by simp)
    norm_num [distributeSolAndCreateATA, solIxsFor, ataIxsFor, chunkArray, chunkArrayLoop,
      addTipToLast, addTipLoop, createAndSignVersionedTx, tipIx, LAMPORTS_PER_SOL]
  · refine h2 2 7 1 Pk.main [0] (fun _ => 0) (fun _ => Except.ok "b")
      [[Ix.syncNative (Pk.ata (Pk.kp 0)),
        Ix.tokenTransfer (Pk.ata Pk.main) (Pk.ata (Pk.kp 0)) Pk.main 2000000000,
        Ix.transfer Pk.main Pk.tip 7]]
      ?_ [Ix.syncNative (Pk.ata (Pk.kp 0)),
        Ix.tokenTransfer (Pk.ata Pk.main) (Pk.ata (Pk.kp 0)) Pk.main 2000000000,
        Ix.transfer Pk.main Pk.tip 7] (by simp)
      (Ix.syncNative (Pk.ata (Pk.kp 0))) (by simp)
    norm_num [distributeWSOL, distributeWSOLChunks, wsolIxsFor, chunkArray, chunkArrayLoop,
      addTipToLast, addTipLoop, createAndSignVersionedTx, tipIx, LAMPORTS_PER_SOL]
